import Mathlib

/-!
# covid19-prometheus: the two exporters' collect cycles

Shallow embedding of `jhp/main.go` (the global, John Hopkins service) and `mx/main.go`
(the Mexico service).  Both programs are one `Collect` method: fetch a JSON document,
decode it into a slice of records and write two gauge vectors, one series per label tuple.

Conventions of the embedding.

* A `float64` is held as its IEEE-754 bit pattern (`math.Float64bits`), a natural number;
  a gauge stores exactly that pattern.
* `strconv.ParseFloat(s, 64)` is not part of the repository: every definition that calls it
  takes it as the parameter `pf`, `none` standing for a non-nil error.
* `prometheus.GaugeVec` is embedded as an association list from label values to the
  stored value, in order of creation.
* `log.Fatal` and a run-time panic end the cycle; the `Outcome` of a cycle records which
  one happened, next to the gauge vectors as they stood at that moment.
-/

set_option autoImplicit false

/-! ## Numbers -/

/-- The bit pattern of a `float64` (`math.Float64bits`). -/
abbrev Float64 := Nat

/-- Number of binary digits of `n`, minus one, for `n > 0` (`fuel` bounds the recursion). -/
def log2Aux : Nat → Nat → Nat
  | 0, _ => 0
  | fuel + 1, n => if n < 2 then 0 else 1 + log2Aux fuel (n / 2)

/-- The `float64` that equals the natural number `n`; exact for `n < 2 ^ 53`. -/
def float64OfNat (n : Nat) : Float64 :=
  if n = 0 then 0
  else
    let e := log2Aux 64 n
    (e + 1023) * 2 ^ 52 + (n - 2 ^ e) * 2 ^ (52 - e)

/-! ## The part of `client_golang/prometheus` the exporters use -/

/-- Fields of `prometheus.GaugeOpts` the exporters fill in. -/
structure GaugeOpts where
  Namespace : String
  Subsystem : String := ""
  Name : String
  Help : String
deriving DecidableEq, Repr

/-- The descriptor of a metric family: fully-qualified name, help text, label names. -/
structure Desc where
  fqName : String
  help : String
  variableLabels : List String
deriving DecidableEq, Repr

/-- The function `prometheus.BuildFQName`: the non-empty parts joined by an underscore. -/
def BuildFQName (ns subsystem name : String) : String :=
  if name = "" then ""
  else if ns ≠ "" ∧ subsystem ≠ "" then ns ++ "_" ++ subsystem ++ "_" ++ name
  else if ns ≠ "" then ns ++ "_" ++ name
  else if subsystem ≠ "" then subsystem ++ "_" ++ name
  else name

/-- A gauge vector: its descriptor and the series it holds, keyed by label values, in
order of creation.  The value of a series is the bit pattern last stored in it. -/
structure GaugeVec where
  desc : Desc
  metrics : List (List String × Float64)
deriving DecidableEq, Repr

/-- The constructor `prometheus.NewGaugeVec`: no series yet. -/
def NewGaugeVec (opts : GaugeOpts) (labelNames : List String) : GaugeVec :=
  { desc := { fqName := BuildFQName opts.Namespace opts.Subsystem opts.Name,
              help := opts.Help,
              variableLabels := labelNames },
    metrics := [] }

/-- A gauge obtained from a vector: the vector (with the series present) and the label
values that select the series. -/
structure Gauge where
  vec : GaugeVec
  labelValues : List String
deriving DecidableEq, Repr

/-- Method `GaugeVec.WithLabelValues`.  The number of values must equal the
number of label names, otherwise the call panics (`none`).  The series of the label values is
returned, and created with value `0` when the vector does not hold it yet.  (The check
that every value is valid UTF-8 cannot fail on a `String`.) -/
def GaugeVec.WithLabelValues (g : GaugeVec) (lvs : List String) : Option Gauge :=
  if lvs.length = g.desc.variableLabels.length then
    if g.metrics.any (fun s => s.1 = lvs) then some { vec := g, labelValues := lvs }
    else some { vec := { g with metrics := g.metrics ++ [(lvs, 0)] }, labelValues := lvs }
  else none

/-- Store `v` in the first series of `ms` whose label values are `lvs`. -/
def storeValue (lvs : List String) (v : Float64) :
    List (List String × Float64) → List (List String × Float64)
  | [] => []
  | s :: rest => if s.1 = lvs then (s.1, v) :: rest else s :: storeValue lvs v rest

/-- Method `Gauge.Set`: the value of the series becomes `v`. -/
def Gauge.Set (g : Gauge) (v : Float64) : GaugeVec :=
  { g.vec with metrics := storeValue g.labelValues v g.vec.metrics }

/-- The value held by the series with label values `lvs`, if the vector holds one. -/
def GaugeVec.value? (g : GaugeVec) (lvs : List String) : Option Float64 :=
  (g.metrics.find? (fun s => s.1 = lvs)).map (fun s => s.2)

/-- The label tuples of the series a vector holds. -/
def GaugeVec.labelTuples (g : GaugeVec) : List (List String) :=
  g.metrics.map (fun s => s.1)

/-- One sample of the exposition: family name, label name/value pairs, value. -/
structure Metric where
  fqName : String
  labels : List (String × String)
  value : Float64
deriving DecidableEq, Repr

/-- Method `GaugeVec.Collect`: every series the vector holds is sent on the channel.
(The library sends them in map order; the embedding uses the order of creation.) -/
def GaugeVec.Collect (g : GaugeVec) : List Metric :=
  g.metrics.map (fun s =>
    { fqName := g.desc.fqName, labels := g.desc.variableLabels.zip s.1, value := s.2 })

/-- Method `GaugeVec.Describe`: the descriptor of the family. -/
def GaugeVec.Describe (g : GaugeVec) : List Desc := [g.desc]

/-- How a collect cycle ended: it returned, it called `log.Fatal` (the process exits), or
it panicked. -/
inductive Outcome where
  | returned
  | fatal
  | panicked
deriving DecidableEq, Repr

/-! ## The HTTP exchange and the JSON document -/

/-- A JSON value as `encoding/json` scans it; a number keeps its literal text. -/
inductive JSON where
  | null
  | bool (b : Bool)
  | number (lit : String)
  | string (s : String)
  | array (xs : List JSON)
  | object (kvs : List (String × JSON))

/-- The bytes of a response body, as `json.Unmarshal` sees them: bytes its scanner
rejects (a syntax error, which includes the empty body), or the JSON value they spell. -/
inductive Body where
  | invalid
  | valid (v : JSON)

/-- A `*http.Response` that is not nil; `body` is what `ioutil.ReadAll(resp.Body)` returns,
the bytes or a read error. -/
structure Response where
  body : Except String Body

/-- What `http.DefaultClient.Do` returns: the response pointer (`none` for nil) and the
error (`none` for nil).  On a transport error the response is nil. -/
structure DoResult where
  resp : Option Response
  err : Option String

/-- Case folding of one character of an object key, as far as it can reach an ASCII
letter: upper case to lower case, the Kelvin sign to `k`, the long s to `s`. -/
def foldRune (c : Char) : Char :=
  if 65 ≤ c.toNat ∧ c.toNat ≤ 90 then Char.ofNat (c.toNat + 32)
  else if c.toNat = 0x212A then 'k'
  else if c.toNat = 0x17F then 's'
  else c

/-- Whether the object key `key` addresses the struct field tagged `name` (an ASCII name):
`encoding/json` takes an exact match, and failing that a match under case folding. -/
def equalFold (name key : String) : Bool :=
  name.toList.map foldRune = key.toList.map foldRune

/-- Decoding a JSON value into a `string` field: a string is stored, `null` leaves the
field as it is, anything else is a type error and leaves the field as it is.  The
boolean tells whether a type error was recorded. -/
def decodeString (v : JSON) (old : String) : String × Bool :=
  match v with
  | .string s => (s, false)
  | .null => (old, false)
  | _ => (old, true)

/-- Decoding a JSON value into a `float64` field: a number literal goes through
`strconv.ParseFloat`; `null` leaves the field as it is; anything else, and a literal that
`ParseFloat` refuses, is a type error and leaves the field as it is. -/
def decodeFloat64 (pf : String → Option Float64) (v : JSON) (old : Float64) : Float64 × Bool :=
  match v with
  | .number lit =>
    match pf lit with
    | some f => (f, false)
    | none => (old, true)
  | .null => (old, false)
  | _ => (old, true)

/-- What a collect cycle leaves behind: the exporter's gauge vectors, how the cycle ended,
what was printed, and the samples sent on the channel (none unless the cycle returned). -/
structure CycleResult (E : Type) where
  exporter : E
  outcome : Outcome
  printed : List String
  sent : List Metric

/-! ## `jhp/main.go`: the global service -/

namespace JHP

/-- The `stats` struct of a record. -/
structure StatsFields where
  Confirmed : String
  Deaths : String
  Recovered : Float64
deriving DecidableEq, Repr

/-- The `coordinates` struct of a record. -/
structure CoordinatesFields where
  Latitude : String
  Longitude : String
deriving DecidableEq, Repr

/-- One element of `JhopkinsData`. -/
structure JhopkinsDatum where
  Country : String
  Province : String
  City : String
  UpdatedAt : String
  Stats : StatsFields
  Coordinates : CoordinatesFields
deriving DecidableEq, Repr

/-- The slice type `JhopkinsData`. -/
abbrev JhopkinsData := List JhopkinsDatum

/-- The zero value of an element, which a fresh slice element holds before decoding. -/
def zeroDatum : JhopkinsDatum :=
  { Country := "", Province := "", City := "", UpdatedAt := "",
    Stats := { Confirmed := "", Deaths := "", Recovered := 0 },
    Coordinates := { Latitude := "", Longitude := "" } }

/-- The constant `namespace`. -/
def metricNamespace : String := "covid19JHP"

/-- The struct `Exporter` (its mutex plays no part in a single cycle). -/
structure Exporter where
  JHcases : GaugeVec
  JHdeaths : GaugeVec
deriving DecidableEq, Repr

/-- The function `NewExporter`. -/
def NewExporter : Exporter :=
  { JHcases := NewGaugeVec
      { Namespace := metricNamespace, Name := "confirmed_cases",
        Help := "John Hopkins data confirmed cases" }
      ["country", "province", "city", "latitude", "longitude"],
    JHdeaths := NewGaugeVec
      { Namespace := metricNamespace, Name := "deaths",
        Help := "John Hopkins data confirmed deaths" }
      ["country", "province", "city", "latitude", "longitude"] }

/-- Method `Exporter.Describe`. -/
def Describe (e : Exporter) : List Desc :=
  e.JHcases.Describe ++ e.JHdeaths.Describe

/-- One key of a `stats` object decoded into the struct. -/
def decodeStatsField (pf : String → Option Float64) (acc : StatsFields × Bool)
    (kv : String × JSON) : StatsFields × Bool :=
  if equalFold "confirmed" kv.1 then
    let r := decodeString kv.2 acc.1.Confirmed
    ({ acc.1 with Confirmed := r.1 }, acc.2 || r.2)
  else if equalFold "deaths" kv.1 then
    let r := decodeString kv.2 acc.1.Deaths
    ({ acc.1 with Deaths := r.1 }, acc.2 || r.2)
  else if equalFold "recovered" kv.1 then
    let r := decodeFloat64 pf kv.2 acc.1.Recovered
    ({ acc.1 with Recovered := r.1 }, acc.2 || r.2)
  else acc

/-- A JSON value decoded into the `stats` struct: the keys of an object in order, unknown
keys ignored; `null` changes nothing; any other value is a type error. -/
def decodeStats (pf : String → Option Float64) (v : JSON) (old : StatsFields) :
    StatsFields × Bool :=
  match v with
  | .object kvs => kvs.foldl (decodeStatsField pf) (old, false)
  | .null => (old, false)
  | _ => (old, true)

/-- One key of a `coordinates` object decoded into the struct. -/
def decodeCoordinatesField (acc : CoordinatesFields × Bool) (kv : String × JSON) :
    CoordinatesFields × Bool :=
  if equalFold "latitude" kv.1 then
    let r := decodeString kv.2 acc.1.Latitude
    ({ acc.1 with Latitude := r.1 }, acc.2 || r.2)
  else if equalFold "longitude" kv.1 then
    let r := decodeString kv.2 acc.1.Longitude
    ({ acc.1 with Longitude := r.1 }, acc.2 || r.2)
  else acc

/-- A JSON value decoded into the `coordinates` struct. -/
def decodeCoordinates (v : JSON) (old : CoordinatesFields) : CoordinatesFields × Bool :=
  match v with
  | .object kvs => kvs.foldl decodeCoordinatesField (old, false)
  | .null => (old, false)
  | _ => (old, true)

/-- One key of a record object decoded into the element. -/
def decodeDatumField (pf : String → Option Float64) (acc : JhopkinsDatum × Bool)
    (kv : String × JSON) : JhopkinsDatum × Bool :=
  if equalFold "country" kv.1 then
    let r := decodeString kv.2 acc.1.Country
    ({ acc.1 with Country := r.1 }, acc.2 || r.2)
  else if equalFold "province" kv.1 then
    let r := decodeString kv.2 acc.1.Province
    ({ acc.1 with Province := r.1 }, acc.2 || r.2)
  else if equalFold "city" kv.1 then
    let r := decodeString kv.2 acc.1.City
    ({ acc.1 with City := r.1 }, acc.2 || r.2)
  else if equalFold "updatedAt" kv.1 then
    let r := decodeString kv.2 acc.1.UpdatedAt
    ({ acc.1 with UpdatedAt := r.1 }, acc.2 || r.2)
  else if equalFold "stats" kv.1 then
    let r := decodeStats pf kv.2 acc.1.Stats
    ({ acc.1 with Stats := r.1 }, acc.2 || r.2)
  else if equalFold "coordinates" kv.1 then
    let r := decodeCoordinates kv.2 acc.1.Coordinates
    ({ acc.1 with Coordinates := r.1 }, acc.2 || r.2)
  else acc

/-- One array element decoded into a fresh (zero) slice element. -/
def decodeDatum (pf : String → Option Float64) (v : JSON) : JhopkinsDatum × Bool :=
  match v with
  | .object kvs => kvs.foldl (decodeDatumField pf) (zeroDatum, false)
  | .null => (zeroDatum, false)
  | _ => (zeroDatum, true)

/-- The call `json.Unmarshal(JHbody, &JHdata)` on the empty slice `JhopkinsData{}`: the
decoded slice, and whether the returned error is non-nil.  A body the scanner rejects
leaves the slice untouched; an array is decoded element by element, a type error in
one place being recorded while decoding goes on; `null` gives the nil slice; any other
top-level value is a type error. -/
def Unmarshal (pf : String → Option Float64) (b : Body) : JhopkinsData × Bool :=
  match b with
  | .invalid => ([], true)
  | .valid (.array xs) =>
    ((xs.map (decodeDatum pf)).map (fun r => r.1), (xs.map (decodeDatum pf)).any (fun r => r.2))
  | .valid .null => ([], false)
  | .valid _ => ([], true)

/-- The label values the loop passes to `WithLabelValues` for the record `x`. -/
def labelValues (x : JhopkinsDatum) : List String :=
  [x.Country, x.Province, x.City, x.Coordinates.Latitude, x.Coordinates.Longitude]

/-- The `for` loop of `Collect` over the decoded slice: both texts are parsed, a failure
being fatal; then the confirmed gauge and the deaths gauge of the record's label values
are set, in that order. -/
def publish (pf : String → Option Float64) : Exporter → JhopkinsData → Exporter × Outcome
  | e, [] => (e, .returned)
  | e, x :: rest =>
    match pf x.Stats.Confirmed with
    | none => (e, .fatal)
    | some confirm =>
      match pf x.Stats.Deaths with
      | none => (e, .fatal)
      | some deaths =>
        match e.JHcases.WithLabelValues (labelValues x) with
        | none => (e, .panicked)
        | some gc =>
          let e1 : Exporter := { e with JHcases := gc.Set confirm }
          match e1.JHdeaths.WithLabelValues (labelValues x) with
          | none => (e1, .panicked)
          | some gd => publish pf { e1 with JHdeaths := gd.Set deaths } rest

/-- Method `Exporter.Collect`, given what `http.DefaultClient.Do` returns.  (`NewRequest`
cannot fail on the constant URL.)  An error of `Do` is printed and the cycle goes on to
`JHresp.Body`, which panics on a nil response; a read error is fatal; the error of
`json.Unmarshal` is dropped; after the loop both vectors are sent on the channel. -/
def Collect (pf : String → Option Float64) (e : Exporter) (r : DoResult) :
    CycleResult Exporter :=
  let printed := match r.err with
    | some msg => [msg]
    | none => []
  match r.resp with
  | none => { exporter := e, outcome := .panicked, printed := printed, sent := [] }
  | some resp =>
    match resp.body with
    | .error _ => { exporter := e, outcome := .fatal, printed := printed, sent := [] }
    | .ok JHbody =>
      let JHdata := (Unmarshal pf JHbody).1
      match publish pf e JHdata with
      | (e1, .returned) =>
        { exporter := e1, outcome := .returned, printed := printed,
          sent := e1.JHcases.Collect ++ e1.JHdeaths.Collect }
      | (e1, o) => { exporter := e1, outcome := o, printed := printed, sent := [] }

end JHP

/-! ## `mx/main.go`: the country-specific service -/

namespace MX

/-- One element of `Covid19MX`. -/
structure Covid19MXCase where
  CaseID : Float64
  State : String
  Sex : String
  Age : Float64
  DateSintomStarted : String
  IDnRtSecDna : String
  ArrivedFrom : String
  EntryToMX : String
deriving DecidableEq, Repr

/-- The slice type `Covid19MX`. -/
abbrev Covid19MX := List Covid19MXCase

/-- The zero value of an element. -/
def zeroCase : Covid19MXCase :=
  { CaseID := 0, State := "", Sex := "", Age := 0, DateSintomStarted := "",
    IDnRtSecDna := "", ArrivedFrom := "", EntryToMX := "" }

/-- The constant `namespace`. -/
def metricNamespace : String := "covid19MX"

/-- The struct `Exporter`. -/
structure Exporter where
  CaseID : GaugeVec
  Age : GaugeVec
deriving DecidableEq, Repr

/-- The function `NewExporter`. -/
def NewExporter : Exporter :=
  { CaseID := NewGaugeVec
      { Namespace := metricNamespace, Name := "caseID", Help := "CaseID" }
      ["state", "sex", "date_sintoms_started", "arrived_from", "entry_to_mx_date"],
    Age := NewGaugeVec
      { Namespace := metricNamespace, Name := "Age", Help := "Person Age" }
      ["state", "sex", "date_sintoms_started", "arrived_from", "entry_to_mx_date"] }

/-- Method `Exporter.Describe`. -/
def Describe (e : Exporter) : List Desc :=
  e.CaseID.Describe ++ e.Age.Describe

/-- One key of a case object decoded into the element. -/
def decodeCaseField (pf : String → Option Float64) (acc : Covid19MXCase × Bool)
    (kv : String × JSON) : Covid19MXCase × Bool :=
  if equalFold "n0_caso" kv.1 then
    let r := decodeFloat64 pf kv.2 acc.1.CaseID
    ({ acc.1 with CaseID := r.1 }, acc.2 || r.2)
  else if equalFold "estado" kv.1 then
    let r := decodeString kv.2 acc.1.State
    ({ acc.1 with State := r.1 }, acc.2 || r.2)
  else if equalFold "sexo" kv.1 then
    let r := decodeString kv.2 acc.1.Sex
    ({ acc.1 with Sex := r.1 }, acc.2 || r.2)
  else if equalFold "edad" kv.1 then
    let r := decodeFloat64 pf kv.2 acc.1.Age
    ({ acc.1 with Age := r.1 }, acc.2 || r.2)
  else if equalFold "fecha_de_inicio_de_sintomas" kv.1 then
    let r := decodeString kv.2 acc.1.DateSintomStarted
    ({ acc.1 with DateSintomStarted := r.1 }, acc.2 || r.2)
  else if equalFold "identificacion_de_covid_19_por_rt_pcrsecuencia_de_dna" kv.1 then
    let r := decodeString kv.2 acc.1.IDnRtSecDna
    ({ acc.1 with IDnRtSecDna := r.1 }, acc.2 || r.2)
  else if equalFold "procedencia" kv.1 then
    let r := decodeString kv.2 acc.1.ArrivedFrom
    ({ acc.1 with ArrivedFrom := r.1 }, acc.2 || r.2)
  else if equalFold "fecha_del_llegada_a_mexico" kv.1 then
    let r := decodeString kv.2 acc.1.EntryToMX
    ({ acc.1 with EntryToMX := r.1 }, acc.2 || r.2)
  else acc

/-- One array element decoded into a fresh (zero) slice element. -/
def decodeCase (pf : String → Option Float64) (v : JSON) : Covid19MXCase × Bool :=
  match v with
  | .object kvs => kvs.foldl (decodeCaseField pf) (zeroCase, false)
  | .null => (zeroCase, false)
  | _ => (zeroCase, true)

/-- The call `json.Unmarshal(body, &MXData)` on the empty slice `Covid19MX{}`: the decoded
slice, and whether the returned error is non-nil. -/
def Unmarshal (pf : String → Option Float64) (b : Body) : Covid19MX × Bool :=
  match b with
  | .invalid => ([], true)
  | .valid (.array xs) =>
    ((xs.map (decodeCase pf)).map (fun r => r.1), (xs.map (decodeCase pf)).any (fun r => r.2))
  | .valid .null => ([], false)
  | .valid _ => ([], true)

/-- The label values the loop passes to `WithLabelValues` for the case `d`. -/
def labelValues (d : Covid19MXCase) : List String :=
  [d.State, d.Sex, d.DateSintomStarted, d.ArrivedFrom, d.EntryToMX]

/-- The `for` loop of `Collect` over the decoded slice: the case-id gauge and the age
gauge of the case's label values are set, in that order. -/
def publish : Exporter → Covid19MX → Exporter × Outcome
  | e, [] => (e, .returned)
  | e, d :: rest =>
    match e.CaseID.WithLabelValues (labelValues d) with
    | none => (e, .panicked)
    | some gc =>
      let e1 : Exporter := { e with CaseID := gc.Set d.CaseID }
      match e1.Age.WithLabelValues (labelValues d) with
      | none => (e1, .panicked)
      | some ga => publish { e1 with Age := ga.Set d.Age } rest

/-- Method `Exporter.Collect`, given what `http.DefaultClient.Do` returns. -/
def Collect (pf : String → Option Float64) (e : Exporter) (r : DoResult) :
    CycleResult Exporter :=
  let printed := match r.err with
    | some msg => [msg]
    | none => []
  match r.resp with
  | none => { exporter := e, outcome := .panicked, printed := printed, sent := [] }
  | some resp =>
    match resp.body with
    | .error _ => { exporter := e, outcome := .fatal, printed := printed, sent := [] }
    | .ok body =>
      let MXData := (Unmarshal pf body).1
      match publish e MXData with
      | (e1, .returned) =>
        { exporter := e1, outcome := .returned, printed := printed,
          sent := e1.CaseID.Collect ++ e1.Age.Collect }
      | (e1, o) => { exporter := e1, outcome := o, printed := printed, sent := [] }

end MX

/-! ## Series lists: what setting gauges does to them -/

/-- A series list. -/
abbrev Series := List (List String × Float64)

/-- The series list after `WithLabelValues(lvs...).Set(v)`: the first series keyed `k` gets
the value `v`; when there is none, one is appended. -/
def setSeries : Series → List String → Float64 → Series
  | [], k, v => [(k, v)]
  | s :: rest, k, v => if s.1 = k then (s.1, v) :: rest else s :: setSeries rest k v

/-- The series list after setting, from left to right, every pair of `kvs`. -/
def setAll (ms : Series) (kvs : Series) : Series :=
  kvs.foldl (fun m kv => setSeries m kv.1 kv.2) ms

/-- The value the series keyed `k` ends with after the pairs of `kvs` are set, `d` being
its value before. -/
def lastVal (k : List String) : Series → Float64 → Float64
  | [], d => d
  | kv :: rest, d => lastVal k rest (if kv.1 = k then kv.2 else d)


/-- The vector `g` with its series list replaced by the result of setting `k` to `v`. -/
def GaugeVec.setTo (g : GaugeVec) (k : List String) (v : Float64) : GaugeVec :=
  { g with metrics := setSeries g.metrics k v }

/-- The vector `g` after setting, from left to right, every pair of `kvs`. -/
def GaugeVec.setAllTo (g : GaugeVec) (kvs : Series) : GaugeVec :=
  { g with metrics := setAll g.metrics kvs }

namespace JHP

/-- Both texts of the record parse. -/
def parses (pf : String → Option Float64) (x : JhopkinsDatum) : Bool :=
  (pf x.Stats.Confirmed).isSome && (pf x.Stats.Deaths).isSome

/-- The writes to the confirmed vector that a run of parsing records makes. -/
def casesWrites (pf : String → Option Float64) (rs : JhopkinsData) : Series :=
  rs.map (fun x => (labelValues x, (pf x.Stats.Confirmed).getD 0))

/-- The writes to the deaths vector that a run of parsing records makes. -/
def deathsWrites (pf : String → Option Float64) (rs : JhopkinsData) : Series :=
  rs.map (fun x => (labelValues x, (pf x.Stats.Deaths).getD 0))

end JHP

namespace MX

/-- The writes to the case-id vector that the records make. -/
def caseIDWrites (rs : Covid19MX) : Series :=
  rs.map (fun d => (labelValues d, d.CaseID))

/-- The writes to the age vector that the records make. -/
def ageWrites (rs : Covid19MX) : Series :=
  rs.map (fun d => (labelValues d, d.Age))

end MX

/-- The vector `g` holds exactly one series per distinct label tuple of `tuples`: no tuple
twice, the tuples held are those of `tuples`, and so their number is the number of
distinct tuples, at most the length of `tuples` and equal to it when they are pairwise
distinct. -/
def OneSeriesPerTuple (g : GaugeVec) (tuples : List (List String)) : Prop :=
  g.labelTuples.Nodup
    ∧ (∀ l, l ∈ g.labelTuples ↔ l ∈ tuples)
    ∧ g.metrics.length = tuples.dedup.length
    ∧ g.metrics.length ≤ tuples.length
    ∧ (tuples.Nodup → g.metrics.length = tuples.length)

/-- A parse function to evaluate examples with: on a non-empty string of decimal digits
the `float64` of the number they spell (what `strconv.ParseFloat` returns for it below
`2 ^ 53`), on any other text an error.  The theorems hold for every parse function. -/
def parseDigits (s : String) : Option Float64 :=
  if s.toList ≠ [] ∧ s.toList.all Char.isDigit = true then
    some (float64OfNat (s.toList.foldl (fun n c => 10 * n + (c.toNat - 48)) 0))
  else none

/-- The record of the concrete scenario of the specification, with free `updatedAt` and
`recovered`. -/
def JHP.scenarioDatum (updatedAt : String) (recovered : Float64) : JHP.JhopkinsDatum :=
  { Country := "X", Province := "", City := "", UpdatedAt := updatedAt,
    Stats := { Confirmed := "10", Deaths := "2", Recovered := recovered },
    Coordinates := { Latitude := "1.0", Longitude := "2.0" } }

/-- A payload of three records, the first and the last with the same label tuple. -/
def JHP.samplePayload : JHP.JhopkinsData :=
  [ JHP.scenarioDatum "" 0,
    { Country := "Y", Province := "P", City := "", UpdatedAt := "",
      Stats := { Confirmed := "1234", Deaths := "5", Recovered := 0 },
      Coordinates := { Latitude := "3.5", Longitude := "-4" } },
    { Country := "X", Province := "", City := "", UpdatedAt := "later",
      Stats := { Confirmed := "11", Deaths := "3", Recovered := 0 },
      Coordinates := { Latitude := "1.0", Longitude := "2.0" } } ]

/-- A payload of two cases with distinct label tuples. -/
def MX.samplePayload : MX.Covid19MX :=
  [ { CaseID := float64OfNat 1, State := "A", Sex := "F", Age := float64OfNat 35,
      DateSintomStarted := "d1", IDnRtSecDna := "", ArrivedFrom := "E", EntryToMX := "d2" },
    { CaseID := float64OfNat 2, State := "B", Sex := "M", Age := float64OfNat 7,
      DateSintomStarted := "d3", IDnRtSecDna := "", ArrivedFrom := "F", EntryToMX := "d4" } ]

/-- A payload whose second record has a confirmed text that is not a number. -/
def JHP.brokenPayload : JHP.JhopkinsData :=
  [ { Country := "Y", Province := "P", City := "", UpdatedAt := "",
      Stats := { Confirmed := "1234", Deaths := "5", Recovered := 0 },
      Coordinates := { Latitude := "3.5", Longitude := "-4" } },
    { Country := "Z", Province := "", City := "", UpdatedAt := "",
      Stats := { Confirmed := "n/a", Deaths := "1", Recovered := 0 },
      Coordinates := { Latitude := "0", Longitude := "0" } },
    JHP.scenarioDatum "" 0 ]

/-- What a cycle that writes only the label tuples `written` leaves of a vector: the
descriptor; for every other tuple the value held, or the absence of a series; every
series of another tuple, as it was; and every tuple that was held is still held. -/
def KeepsOtherSeries (before after : GaugeVec) (written : List (List String)) : Prop :=
  after.desc = before.desc
    ∧ (∀ l, l ∉ written → after.value? l = before.value? l)
    ∧ (∀ s ∈ before.metrics, s.1 ∉ written → s ∈ after.metrics)
    ∧ (∀ l ∈ before.labelTuples, l ∈ after.labelTuples)

/-- The body of the concrete scenario of the specification:
`[{"country":"X","province":"","city":"","updatedAt":"","stats":{"confirmed":"10",
"deaths":"2","recovered":0},"coordinates":{"latitude":"1.0","longitude":"2.0"}}]`. -/
def JHP.scenarioBody : Body :=
  .valid (.array [.object
    [ ("country", .string "X"), ("province", .string ""), ("city", .string ""),
      ("updatedAt", .string ""),
      ("stats", .object
        [("confirmed", .string "10"), ("deaths", .string "2"), ("recovered", .number "0")]),
      ("coordinates", .object [("latitude", .string "1.0"), ("longitude", .string "2.0")]) ]])

/-- The samples of the concrete scenario: one per family, with the same labels. -/
def JHP.scenarioSamples : List Metric :=
  [ { fqName := "covid19JHP_confirmed_cases",
      labels := [("country", "X"), ("province", ""), ("city", ""), ("latitude", "1.0"),
        ("longitude", "2.0")],
      value := float64OfNat 10 },
    { fqName := "covid19JHP_deaths",
      labels := [("country", "X"), ("province", ""), ("city", ""), ("latitude", "1.0"),
        ("longitude", "2.0")],
      value := float64OfNat 2 } ]

/-- The exporter states, with the outcome of the cycle that produced them, that a
sequence of collect cycles over decoded payloads reaches from `NewExporter`.  A cycle
starts only after one that returned; a state left by a fatal exit is reached too. -/
inductive JHP.Reachable (pf : String → Option Float64) : JHP.Exporter → Outcome → Prop where
  | init : JHP.Reachable pf JHP.NewExporter .returned
  | cycle (e : JHP.Exporter) (rs : JHP.JhopkinsData) :
      JHP.Reachable pf e .returned →
      JHP.Reachable pf (JHP.publish pf e rs).1 (JHP.publish pf e rs).2

/-- The exporter states that a sequence of collect cycles over decoded payloads reaches
from `NewExporter`, with the outcome of the last cycle. -/
inductive MX.Reachable : MX.Exporter → Outcome → Prop where
  | init : MX.Reachable MX.NewExporter .returned
  | cycle (e : MX.Exporter) (ds : MX.Covid19MX) :
      MX.Reachable e .returned →
      MX.Reachable (MX.publish e ds).1 (MX.publish e ds).2

/-- Whether a JSON value is an array. -/
def JSON.isArray : JSON → Bool
  | .array _ => true
  | _ => false

/-- The body `[{"n0_caso":"7","estado":"A"}]`: the case id is text where the schema of the
country service expects a number. -/
def MX.mismatchBody : Body :=
  .valid (.array [.object [("n0_caso", .string "7"), ("estado", .string "A")]])

/-- The body `[{"country":"X","stats":{"confirmed":10,"deaths":"2"}}]`: the confirmed field
is a number where the schema of the global service expects text. -/
def JHP.mismatchBody : Body :=
  .valid (.array [.object
    [ ("country", .string "X"),
      ("stats", .object [("confirmed", .number "10"), ("deaths", .string "2")]) ]])

/-! ## Lemmas on series lists -/

theorem any_key_iff (ms : Series) (k : List String) :
    ms.any (fun s => decide (s.1 = k)) = true ↔ k ∈ ms.map (fun s => s.1) := by
  induction ms with
  | nil => simp
  | cons s rest ih =>
    simp only [List.any_cons, Bool.or_eq_true, decide_eq_true_eq, ih, List.map_cons,
      List.mem_cons]
    constructor
    · rintro (h | h)
      · exact Or.inl h.symm
      · exact Or.inr h
    · rintro (h | h)
      · exact Or.inl h.symm
      · exact Or.inr h

theorem storeValue_append_new (ms : Series) (k : List String) (v w : Float64)
    (h : k ∉ ms.map (fun s => s.1)) :
    storeValue k v (ms ++ [(k, w)]) = setSeries ms k v := by
  induction ms with
  | nil => simp [storeValue, setSeries]
  | cons s rest ih =>
    simp only [List.map_cons, List.mem_cons, not_or] at h
    have hne : ¬ s.1 = k := fun e => h.1 e.symm
    simp [storeValue, setSeries, hne, ih h.2]

theorem storeValue_present (ms : Series) (k : List String) (v : Float64)
    (h : k ∈ ms.map (fun s => s.1)) :
    storeValue k v ms = setSeries ms k v := by
  induction ms with
  | nil => simp at h
  | cons s rest ih =>
    by_cases hs : s.1 = k
    · simp [storeValue, setSeries, hs]
    · simp only [List.map_cons, List.mem_cons] at h
      have h2 : k ∈ rest.map (fun s => s.1) := by
        rcases h with h | h
        · exact absurd h.symm hs
        · exact h
      simp [storeValue, setSeries, hs, ih h2]

/-- `WithLabelValues` panics exactly on an arity mismatch. -/
theorem withLabelValues_eq_none (g : GaugeVec) (lvs : List String) :
    g.WithLabelValues lvs = none ↔ lvs.length ≠ g.desc.variableLabels.length := by
  unfold GaugeVec.WithLabelValues
  by_cases h : lvs.length = g.desc.variableLabels.length
  · simp only [h, if_true, ne_eq, not_true_eq_false, iff_false]
    split <;> simp
  · simp [h]

/-- `WithLabelValues(lvs...).Set(v)` acts on the series list as `setSeries`. -/
theorem withLabelValues_set (g : GaugeVec) (lvs : List String) (gc : Gauge) (v : Float64)
    (h : g.WithLabelValues lvs = some gc) :
    gc.Set v = { g with metrics := setSeries g.metrics lvs v } := by
  unfold GaugeVec.WithLabelValues at h
  by_cases ha : lvs.length = g.desc.variableLabels.length
  · simp only [ha, if_true] at h
    by_cases hp : g.metrics.any (fun s => decide (s.1 = lvs)) = true
    · simp only [hp, if_true, Option.some.injEq] at h
      subst h
      simp [Gauge.Set, storeValue_present _ _ _ ((any_key_iff _ _).1 hp)]
    · simp only [hp, Bool.false_eq_true, if_false, Option.some.injEq] at h
      subst h
      have hk : lvs ∉ g.metrics.map (fun s => s.1) := fun hm => hp ((any_key_iff _ _).2 hm)
      simp [Gauge.Set, storeValue_append_new _ _ _ _ hk]
  · simp [ha] at h

theorem setSeries_keys (ms : Series) (k : List String) (v : Float64) :
    (setSeries ms k v).map (fun s => s.1)
      = if k ∈ ms.map (fun s => s.1) then ms.map (fun s => s.1)
        else ms.map (fun s => s.1) ++ [k] := by
  induction ms with
  | nil => simp [setSeries]
  | cons s rest ih =>
    by_cases hs : s.1 = k
    · simp [setSeries, hs]
    · have hs2 : ¬ k = s.1 := fun e => hs e.symm
      by_cases hm : k ∈ rest.map (fun s => s.1)
      · simp [setSeries, hs, hs2, ih, hm]
      · simp [setSeries, hs, hs2, ih, hm]

theorem setSeries_find (ms : Series) (k k2 : List String) (v : Float64) :
    ((setSeries ms k v).find? (fun s => decide (s.1 = k2))).map (fun s => s.2)
      = if k2 = k then some v else (ms.find? (fun s => decide (s.1 = k2))).map (fun s => s.2) := by
  induction ms with
  | nil =>
    by_cases h : k2 = k
    · simp [setSeries, h]
    · have h2 : ¬ k = k2 := fun e => h e.symm
      simp [setSeries, h, h2]
  | cons s rest ih =>
    by_cases hs : s.1 = k
    · by_cases h : k2 = k
      · simp [setSeries, hs, h]
      · have h3 : ¬ s.1 = k2 := fun e => h (e.symm.trans hs)
        have h4 : ¬ k = k2 := fun e => h e.symm
        simp [setSeries, hs, h, h3, h4, List.find?_cons]
    · by_cases h2 : s.1 = k2
      · have h3 : ¬ k2 = k := fun e => hs (h2.trans e)
        simp [setSeries, hs, h2, h3, List.find?_cons]
      · simp [setSeries, hs, h2, List.find?_cons, ih]

theorem setSeries_idem (ms : Series) (k : List String) (v w : Float64) :
    setSeries (setSeries ms k v) k w = setSeries ms k w := by
  induction ms with
  | nil => simp [setSeries]
  | cons s rest ih =>
    by_cases hs : s.1 = k
    · simp [setSeries, hs]
    · simp [setSeries, hs, ih]

theorem setAll_cons (ms : Series) (kv : List String × Float64) (kvs : Series) :
    setAll ms (kv :: kvs) = setAll (setSeries ms kv.1 kv.2) kvs := rfl

theorem setAll_append (ms : Series) (a b : Series) :
    setAll ms (a ++ b) = setAll (setAll ms a) b := by
  simp [setAll, List.foldl_append]

/-- The head series absorbs every write to its key; the others go to the tail. -/
theorem setAll_head (s : List String × Float64) (t : Series) (kvs : Series) :
    setAll (s :: t) kvs
      = (s.1, lastVal s.1 kvs s.2) :: setAll t (kvs.filter (fun kv => decide (kv.1 ≠ s.1))) := by
  induction kvs generalizing s t with
  | nil => simp [setAll, lastVal]
  | cons kv rest ih =>
    obtain ⟨sk, sv⟩ := s
    obtain ⟨k, v⟩ := kv
    rw [setAll_cons]
    by_cases h : sk = k
    · subst h
      simp only [setSeries, if_true]
      rw [ih]
      simp [lastVal]
    · have h2 : ¬ k = sk := fun e => h e.symm
      simp only [setSeries, h, if_false]
      rw [ih]
      simp [lastVal, h2, setAll_cons]

theorem lastVal_idem (k : List String) (kvs : Series) (d : Float64) :
    lastVal k kvs (lastVal k kvs d) = lastVal k kvs d := by
  induction kvs generalizing d with
  | nil => rfl
  | cons kv rest ih =>
    by_cases h : kv.1 = k
    · simp [lastVal, h]
    · simp [lastVal, h, ih]

theorem setAll_idem_aux (n : Nat) : ∀ (ms kvs : Series), ms.length + kvs.length ≤ n →
    setAll (setAll ms kvs) kvs = setAll ms kvs := by
  induction n with
  | zero =>
    intro ms kvs h
    have h1 : kvs = [] := List.length_eq_zero.1 (by omega)
    subst h1
    rfl
  | succ n ih =>
    intro ms kvs h
    cases ms with
    | nil =>
      cases kvs with
      | nil => rfl
      | cons kv rest =>
        obtain ⟨k, v⟩ := kv
        have hlen : (rest.filter (fun kv => decide (kv.1 ≠ k))).length ≤ rest.length :=
          List.length_filter_le _ _
        have e1 : setAll [] ((k, v) :: rest)
            = (k, lastVal k rest v) :: setAll [] (rest.filter (fun kv => decide (kv.1 ≠ k))) := by
          rw [setAll_cons]
          simp only [setSeries]
          rw [setAll_head]
        rw [e1, setAll_head]
        have e2 : ((k, v) :: rest).filter (fun kv => decide (kv.1 ≠ k))
            = rest.filter (fun kv => decide (kv.1 ≠ k)) := by
          simp
        rw [e2, ih [] _ (by simp only [List.length_cons, List.length_nil] at h ⊢; omega)]
        simp [lastVal, lastVal_idem]
    | cons s t =>
      have hlen : (kvs.filter (fun kv => decide (kv.1 ≠ s.1))).length ≤ kvs.length :=
        List.length_filter_le _ _
      rw [setAll_head, setAll_head]
      simp only
      rw [ih t _ (by simp only [List.length_cons, List.length_nil] at h ⊢; omega), lastVal_idem]

/-- Setting the same pairs a second time changes nothing. -/
theorem setAll_idem (ms kvs : Series) : setAll (setAll ms kvs) kvs = setAll ms kvs :=
  setAll_idem_aux _ ms kvs (le_refl _)

theorem setAll_keys_mem (ms kvs : Series) (k : List String) :
    k ∈ (setAll ms kvs).map (fun s => s.1)
      ↔ k ∈ ms.map (fun s => s.1) ∨ k ∈ kvs.map (fun s => s.1) := by
  induction kvs generalizing ms with
  | nil => simp [setAll]
  | cons kv rest ih =>
    rw [setAll_cons, ih, setSeries_keys]
    by_cases hm : kv.1 ∈ ms.map (fun s => s.1)
    · simp only [hm, if_true, List.map_cons, List.mem_cons]
      constructor
      · rintro (h | h)
        · exact Or.inl h
        · exact Or.inr (Or.inr h)
      · rintro (h | h | h)
        · exact Or.inl h
        · exact Or.inl (h ▸ hm)
        · exact Or.inr h
    · simp only [hm, if_false, List.mem_append, List.mem_singleton, List.map_cons, List.mem_cons]
      tauto

theorem setAll_keys_nodup (ms kvs : Series) (h : (ms.map (fun s => s.1)).Nodup) :
    ((setAll ms kvs).map (fun s => s.1)).Nodup := by
  induction kvs generalizing ms with
  | nil => simpa [setAll] using h
  | cons kv rest ih =>
    rw [setAll_cons]
    apply ih
    rw [setSeries_keys]
    by_cases hm : kv.1 ∈ ms.map (fun s => s.1)
    · simpa [hm] using h
    · simp only [hm, if_false]
      rw [List.nodup_append]
      refine ⟨h, List.nodup_singleton _, ?_⟩
      intro a ha hb
      rw [List.mem_singleton] at hb
      exact hm (hb ▸ ha)

/-- Value of a key that none of the pairs writes: unchanged. -/
theorem setAll_find_of_not_mem (ms kvs : Series) (k : List String)
    (h : k ∉ kvs.map (fun s => s.1)) :
    ((setAll ms kvs).find? (fun s => decide (s.1 = k))).map (fun s => s.2)
      = (ms.find? (fun s => decide (s.1 = k))).map (fun s => s.2) := by
  induction kvs generalizing ms with
  | nil => rfl
  | cons kv rest ih =>
    simp only [List.map_cons, List.mem_cons, not_or] at h
    rw [setAll_cons, ih _ h.2, setSeries_find]
    simp [h.1]

/-- Value of a key after the pairs are set: that of the last pair with the key. -/
theorem setAll_find_last (ms pre post : Series) (k : List String) (v : Float64)
    (h : k ∉ post.map (fun s => s.1)) :
    ((setAll ms (pre ++ (k, v) :: post)).find? (fun s => decide (s.1 = k))).map (fun s => s.2)
      = some v := by
  rw [setAll_append, setAll_cons, setAll_find_of_not_mem _ _ _ h, setSeries_find]
  simp

/-- A series whose key none of the pairs writes stays in the list. -/
theorem setAll_mem_of_not_mem (ms kvs : Series) (s : List String × Float64)
    (hs : s ∈ ms) (h : s.1 ∉ kvs.map (fun s => s.1)) : s ∈ setAll ms kvs := by
  induction kvs generalizing ms with
  | nil => exact hs
  | cons kv rest ih =>
    simp only [List.map_cons, List.mem_cons, not_or] at h
    rw [setAll_cons]
    apply ih _ _ h.2
    clear ih
    induction ms with
    | nil => simp at hs
    | cons m t iht =>
      by_cases hm : m.1 = kv.1
      · rcases List.mem_cons.1 hs with e | e
        · exact absurd (e ▸ hm) h.1
        · simp [setSeries, hm, e]
      · rcases List.mem_cons.1 hs with e | e
        · simp [setSeries, hm, e]
        · simp [setSeries, hm, iht e]

/-! ## The loops in terms of `setSeries` -/

theorem withLabelValues_five (g : GaugeVec) (lvs : List String) (v : Float64)
    (hl : lvs.length = 5) (hg : g.desc.variableLabels.length = 5) :
    ∃ gc, g.WithLabelValues lvs = some gc ∧ gc.Set v = g.setTo lvs v := by
  cases h : g.WithLabelValues lvs with
  | none =>
    rw [withLabelValues_eq_none] at h
    exact absurd (hl.trans hg.symm) h
  | some gc => exact ⟨gc, rfl, withLabelValues_set g lvs gc v h⟩

theorem withLabelValues_not_five (g : GaugeVec) (lvs : List String)
    (hl : lvs.length = 5) (hg : g.desc.variableLabels.length ≠ 5) :
    g.WithLabelValues lvs = none := by
  rw [withLabelValues_eq_none, hl]
  exact fun e => hg e.symm

namespace JHP

theorem jhp_labelValues_length (x : JhopkinsDatum) : (labelValues x).length = 5 := rfl

theorem jhp_publish_cons_fatal (pf : String → Option Float64) (e : Exporter) (x : JhopkinsDatum)
    (rest : JhopkinsData) (h : parses pf x = false) :
    publish pf e (x :: rest) = (e, .fatal) := by
  unfold parses at h
  cases hc : pf x.Stats.Confirmed with
  | none => simp [publish, hc]
  | some c =>
    cases hd : pf x.Stats.Deaths with
    | none => simp [publish, hc, hd]
    | some d => simp [hc, hd] at h

theorem jhp_publish_cons_ok (pf : String → Option Float64) (e : Exporter) (x : JhopkinsDatum)
    (rest : JhopkinsData) (h : parses pf x = true)
    (hc : e.JHcases.desc.variableLabels.length = 5)
    (hd : e.JHdeaths.desc.variableLabels.length = 5) :
    publish pf e (x :: rest)
      = publish pf
          { JHcases := e.JHcases.setTo (labelValues x) ((pf x.Stats.Confirmed).getD 0),
            JHdeaths := e.JHdeaths.setTo (labelValues x) ((pf x.Stats.Deaths).getD 0) } rest := by
  unfold parses at h
  cases hpc : pf x.Stats.Confirmed with
  | none => simp [hpc] at h
  | some c =>
    cases hpd : pf x.Stats.Deaths with
    | none => simp [hpd] at h
    | some d =>
      obtain ⟨gc, hgc, hsc⟩ := withLabelValues_five e.JHcases _ c (jhp_labelValues_length x) hc
      obtain ⟨gd, hgd, hsd⟩ := withLabelValues_five e.JHdeaths _ d (jhp_labelValues_length x) hd
      simp [publish, hpc, hpd, hgc, hgd, hsc, hsd]

theorem jhp_publish_cons_panic_cases (pf : String → Option Float64) (e : Exporter)
    (x : JhopkinsDatum) (rest : JhopkinsData) (h : parses pf x = true)
    (hc : e.JHcases.desc.variableLabels.length ≠ 5) :
    publish pf e (x :: rest) = (e, .panicked) := by
  unfold parses at h
  cases hpc : pf x.Stats.Confirmed with
  | none => simp [hpc] at h
  | some c =>
    cases hpd : pf x.Stats.Deaths with
    | none => simp [hpd] at h
    | some d =>
      simp [publish, hpc, hpd, withLabelValues_not_five _ _ (jhp_labelValues_length x) hc]

theorem jhp_publish_cons_panic_deaths (pf : String → Option Float64) (e : Exporter)
    (x : JhopkinsDatum) (rest : JhopkinsData) (h : parses pf x = true)
    (hc : e.JHcases.desc.variableLabels.length = 5)
    (hd : e.JHdeaths.desc.variableLabels.length ≠ 5) :
    publish pf e (x :: rest)
      = ({ e with JHcases := e.JHcases.setTo (labelValues x) ((pf x.Stats.Confirmed).getD 0) },
          .panicked) := by
  unfold parses at h
  cases hpc : pf x.Stats.Confirmed with
  | none => simp [hpc] at h
  | some c =>
    cases hpd : pf x.Stats.Deaths with
    | none => simp [hpd] at h
    | some d =>
      obtain ⟨gc, hgc, hsc⟩ := withLabelValues_five e.JHcases _ c (jhp_labelValues_length x) hc
      simp [publish, hpc, hpd, hgc, hsc,
        withLabelValues_not_five _ _ (jhp_labelValues_length x) hd]

/-- With five label names on both vectors the loop sets, in payload order, the records
before the first one that does not parse, and is fatal when there is such a record. -/
theorem jhp_publish_eq (pf : String → Option Float64) (e : Exporter) (rs : JhopkinsData)
    (hc : e.JHcases.desc.variableLabels.length = 5)
    (hd : e.JHdeaths.desc.variableLabels.length = 5) :
    publish pf e rs
      = ({ JHcases := e.JHcases.setAllTo (casesWrites pf (rs.takeWhile (parses pf))),
           JHdeaths := e.JHdeaths.setAllTo (deathsWrites pf (rs.takeWhile (parses pf))) },
         if rs.all (parses pf) then .returned else .fatal) := by
  induction rs generalizing e with
  | nil => simp [publish, casesWrites, deathsWrites, GaugeVec.setAllTo, setAll]
  | cons x rest ih =>
    by_cases hp : parses pf x = true
    · rw [jhp_publish_cons_ok pf e x rest hp hc hd, ih _ (by simpa [GaugeVec.setTo] using hc) (by simpa [GaugeVec.setTo] using hd)]
      simp [hp, List.takeWhile_cons, casesWrites, deathsWrites, GaugeVec.setAllTo,
        GaugeVec.setTo, setAll_cons]
    · have hp2 : parses pf x = false := by simpa using hp
      rw [jhp_publish_cons_fatal pf e x rest hp2]
      simp [hp2, List.takeWhile_cons, casesWrites, deathsWrites, GaugeVec.setAllTo, setAll]

end JHP

namespace MX

theorem mx_labelValues_length (d : Covid19MXCase) : (labelValues d).length = 5 := rfl

theorem mx_publish_cons_ok (e : Exporter) (d : Covid19MXCase) (rest : Covid19MX)
    (hc : e.CaseID.desc.variableLabels.length = 5)
    (ha : e.Age.desc.variableLabels.length = 5) :
    publish e (d :: rest)
      = publish
          { CaseID := e.CaseID.setTo (labelValues d) d.CaseID,
            Age := e.Age.setTo (labelValues d) d.Age } rest := by
  obtain ⟨gc, hgc, hsc⟩ := withLabelValues_five e.CaseID _ d.CaseID (mx_labelValues_length d) hc
  obtain ⟨ga, hga, hsa⟩ := withLabelValues_five e.Age _ d.Age (mx_labelValues_length d) ha
  simp [publish, hgc, hga, hsc, hsa]

theorem mx_publish_cons_panic_caseID (e : Exporter) (d : Covid19MXCase) (rest : Covid19MX)
    (hc : e.CaseID.desc.variableLabels.length ≠ 5) :
    publish e (d :: rest) = (e, .panicked) := by
  simp [publish, withLabelValues_not_five _ _ (mx_labelValues_length d) hc]

theorem mx_publish_cons_panic_age (e : Exporter) (d : Covid19MXCase) (rest : Covid19MX)
    (hc : e.CaseID.desc.variableLabels.length = 5)
    (ha : e.Age.desc.variableLabels.length ≠ 5) :
    publish e (d :: rest)
      = ({ e with CaseID := e.CaseID.setTo (labelValues d) d.CaseID }, .panicked) := by
  obtain ⟨gc, hgc, hsc⟩ := withLabelValues_five e.CaseID _ d.CaseID (mx_labelValues_length d) hc
  simp [publish, hgc, hsc, withLabelValues_not_five _ _ (mx_labelValues_length d) ha]

/-- With five label names on both vectors the loop sets every record, in payload order,
and returns. -/
theorem mx_publish_eq (e : Exporter) (rs : Covid19MX)
    (hc : e.CaseID.desc.variableLabels.length = 5)
    (ha : e.Age.desc.variableLabels.length = 5) :
    publish e rs
      = ({ CaseID := e.CaseID.setAllTo (caseIDWrites rs),
           Age := e.Age.setAllTo (ageWrites rs) }, .returned) := by
  induction rs generalizing e with
  | nil => simp [publish, caseIDWrites, ageWrites, GaugeVec.setAllTo, setAll]
  | cons d rest ih =>
    rw [mx_publish_cons_ok e d rest hc ha,
      ih _ (by simpa [GaugeVec.setTo] using hc) (by simpa [GaugeVec.setTo] using ha)]
    simp [caseIDWrites, ageWrites, GaugeVec.setAllTo, GaugeVec.setTo, setAll_cons]

end MX

theorem setAll_nil_oneSeries (g : GaugeVec) (kvs : Series) (hg : g.metrics = []) :
    OneSeriesPerTuple (g.setAllTo kvs) (kvs.map (fun s => s.1)) := by
  have hnd : ((setAll [] kvs).map (fun s => s.1)).Nodup :=
    setAll_keys_nodup [] kvs (by simp)
  have hmem : ∀ l, l ∈ (setAll [] kvs).map (fun s => s.1) ↔ l ∈ kvs.map (fun s => s.1) := by
    intro l
    rw [setAll_keys_mem]
    simp
  have hlen : (setAll [] kvs).length = (kvs.map (fun s => s.1)).dedup.length := by
    have hp : List.Perm ((setAll [] kvs).map (fun s => s.1)) (kvs.map (fun s => s.1)).dedup := by
      rw [List.perm_ext_iff_of_nodup hnd (List.nodup_dedup _)]
      intro a
      rw [hmem, List.mem_dedup]
    simpa using hp.length_eq
  unfold OneSeriesPerTuple GaugeVec.labelTuples GaugeVec.setAllTo
  simp only [hg]
  refine ⟨hnd, hmem, hlen, ?_, ?_⟩
  · rw [hlen]
    exact (List.dedup_sublist _).length_le
  · intro h
    rw [hlen, h.dedup]

theorem value_setAllTo_last (g : GaugeVec) (pre post : Series) (k : List String) (v : Float64)
    (h : k ∉ post.map (fun s => s.1)) :
    (g.setAllTo (pre ++ (k, v) :: post)).value? k = some v := by
  unfold GaugeVec.value? GaugeVec.setAllTo
  exact setAll_find_last g.metrics pre post k v h


/-! ## Properties of the collect cycle -/

/-- C1. From the empty registry, one collect cycle over a decoded payload of well-formed
records (global service: both texts of every record parse; country service: any records)
returns, leaves each of the two gauge vectors with exactly one series per distinct label
tuple of the payload (so at most as many series as records, and exactly as many when the
tuples are pairwise distinct), and the series of a label tuple holds the measurement of
the last record of the payload that carries the tuple. -/
theorem collect_one_series_per_tuple_last_value (pf : String → Option Float64)
    (rs : JHP.JhopkinsData) (ds : MX.Covid19MX)
    (hwf : ∀ x ∈ rs, (pf x.Stats.Confirmed).isSome ∧ (pf x.Stats.Deaths).isSome) :
    ((JHP.publish pf JHP.NewExporter rs).2 = .returned
      ∧ OneSeriesPerTuple (JHP.publish pf JHP.NewExporter rs).1.JHcases (rs.map JHP.labelValues)
      ∧ OneSeriesPerTuple (JHP.publish pf JHP.NewExporter rs).1.JHdeaths (rs.map JHP.labelValues)
      ∧ ∀ pre x post, rs = pre ++ x :: post →
          (∀ y ∈ post, JHP.labelValues y ≠ JHP.labelValues x) →
          (JHP.publish pf JHP.NewExporter rs).1.JHcases.value? (JHP.labelValues x)
              = pf x.Stats.Confirmed
            ∧ (JHP.publish pf JHP.NewExporter rs).1.JHdeaths.value? (JHP.labelValues x)
              = pf x.Stats.Deaths)
    ∧ ((MX.publish MX.NewExporter ds).2 = .returned
      ∧ OneSeriesPerTuple (MX.publish MX.NewExporter ds).1.CaseID (ds.map MX.labelValues)
      ∧ OneSeriesPerTuple (MX.publish MX.NewExporter ds).1.Age (ds.map MX.labelValues)
      ∧ ∀ pre d post, ds = pre ++ d :: post →
          (∀ y ∈ post, MX.labelValues y ≠ MX.labelValues d) →
          (MX.publish MX.NewExporter ds).1.CaseID.value? (MX.labelValues d) = some d.CaseID
            ∧ (MX.publish MX.NewExporter ds).1.Age.value? (MX.labelValues d) = some d.Age) := by
  have hall : rs.all (JHP.parses pf) = true := by
    rw [List.all_eq_true]
    intro x hx
    have := hwf x hx
    simp [JHP.parses, this.1, this.2]
  have htw : rs.takeWhile (JHP.parses pf) = rs :=
    List.takeWhile_eq_self_iff.2 (List.all_eq_true.1 hall)
  have hj := JHP.jhp_publish_eq pf JHP.NewExporter rs rfl rfl
  rw [htw, hall] at hj
  have hm := MX.mx_publish_eq MX.NewExporter ds rfl rfl
  rw [hj, hm]
  refine ⟨⟨rfl, ?_, ?_, ?_⟩, ⟨rfl, ?_, ?_, ?_⟩⟩
  · have := setAll_nil_oneSeries JHP.NewExporter.JHcases (JHP.casesWrites pf rs) rfl
    simpa [JHP.casesWrites, List.map_map, Function.comp_def] using this
  · have := setAll_nil_oneSeries JHP.NewExporter.JHdeaths (JHP.deathsWrites pf rs) rfl
    simpa [JHP.deathsWrites, List.map_map, Function.comp_def] using this
  · intro pre x post hrs hpost
    have hx := hwf x (by rw [hrs]; simp)
    obtain ⟨c, hc⟩ := Option.isSome_iff_exists.1 hx.1
    obtain ⟨d, hd⟩ := Option.isSome_iff_exists.1 hx.2
    have hk : JHP.labelValues x ∉ (JHP.casesWrites pf post).map (fun s => s.1) := by
      simp only [JHP.casesWrites, List.map_map, List.mem_map, Function.comp_apply, not_exists,
        not_and]
      exact fun y hy => hpost y hy
    have hk2 : JHP.labelValues x ∉ (JHP.deathsWrites pf post).map (fun s => s.1) := by
      simp only [JHP.deathsWrites, List.map_map, List.mem_map, Function.comp_apply, not_exists,
        not_and]
      exact fun y hy => hpost y hy
    subst hrs
    constructor
    · have := value_setAllTo_last JHP.NewExporter.JHcases (JHP.casesWrites pf pre)
        (JHP.casesWrites pf post) (JHP.labelValues x) c hk
      simpa [JHP.casesWrites, hc] using this
    · have := value_setAllTo_last JHP.NewExporter.JHdeaths (JHP.deathsWrites pf pre)
        (JHP.deathsWrites pf post) (JHP.labelValues x) d hk2
      simpa [JHP.deathsWrites, hd] using this
  · have := setAll_nil_oneSeries MX.NewExporter.CaseID (MX.caseIDWrites ds) rfl
    simpa [MX.caseIDWrites, List.map_map, Function.comp_def] using this
  · have := setAll_nil_oneSeries MX.NewExporter.Age (MX.ageWrites ds) rfl
    simpa [MX.ageWrites, List.map_map, Function.comp_def] using this
  · intro pre d post hds hpost
    have hk : MX.labelValues d ∉ (MX.caseIDWrites post).map (fun s => s.1) := by
      simp only [MX.caseIDWrites, List.map_map, List.mem_map, Function.comp_apply, not_exists,
        not_and]
      exact fun y hy => hpost y hy
    have hk2 : MX.labelValues d ∉ (MX.ageWrites post).map (fun s => s.1) := by
      simp only [MX.ageWrites, List.map_map, List.mem_map, Function.comp_apply, not_exists,
        not_and]
      exact fun y hy => hpost y hy
    subst hds
    constructor
    · have := value_setAllTo_last MX.NewExporter.CaseID (MX.caseIDWrites pre)
        (MX.caseIDWrites post) (MX.labelValues d) d.CaseID hk
      simpa [MX.caseIDWrites] using this
    · have := value_setAllTo_last MX.NewExporter.Age (MX.ageWrites pre)
        (MX.ageWrites post) (MX.labelValues d) d.Age hk2
      simpa [MX.ageWrites] using this

/-- Witness of C1 on the sample payloads: both cycles return, the global one holding two
series for its three records. -/
theorem collect_one_series_per_tuple_last_value_witness :
    (JHP.publish parseDigits JHP.NewExporter JHP.samplePayload).2 = .returned
      ∧ (JHP.publish parseDigits JHP.NewExporter JHP.samplePayload).1.JHcases.metrics.length = 2
      ∧ OneSeriesPerTuple (MX.publish MX.NewExporter MX.samplePayload).1.Age
          (MX.samplePayload.map MX.labelValues) :=
  ⟨(collect_one_series_per_tuple_last_value parseDigits JHP.samplePayload MX.samplePayload
      (by decide)).1.1,
    by decide,
    (collect_one_series_per_tuple_last_value parseDigits JHP.samplePayload MX.samplePayload
      (by decide)).2.2.2.1⟩

theorem JHP.jhp_parses_eq_false_iff (pf : String → Option Float64) (x : JHP.JhopkinsDatum) :
    JHP.parses pf x = false ↔ (pf x.Stats.Confirmed = none ∨ pf x.Stats.Deaths = none) := by
  unfold JHP.parses
  cases pf x.Stats.Confirmed <;> cases pf x.Stats.Deaths <;> simp

theorem JHP.jhp_parses_eq_true_iff (pf : String → Option Float64) (x : JHP.JhopkinsDatum) :
    JHP.parses pf x = true ↔ ((pf x.Stats.Confirmed).isSome ∧ (pf x.Stats.Deaths).isSome) := by
  unfold JHP.parses
  simp

theorem JHP.jhp_publish_stops_at_first_failure (pf : String → Option Float64) (e : JHP.Exporter)
    (pre : JHP.JhopkinsData) (x : JHP.JhopkinsDatum) (post : JHP.JhopkinsData)
    (hc : e.JHcases.desc.variableLabels.length = 5)
    (hd : e.JHdeaths.desc.variableLabels.length = 5)
    (hpre : ∀ y ∈ pre, JHP.parses pf y = true) (hx : JHP.parses pf x = false) :
    JHP.publish pf e (pre ++ x :: post) = ((JHP.publish pf e pre).1, .fatal)
      ∧ (JHP.publish pf e pre).2 = .returned := by
  induction pre generalizing e with
  | nil =>
    rw [List.nil_append, JHP.jhp_publish_cons_fatal pf e x post hx]
    exact ⟨rfl, rfl⟩
  | cons y pre ih =>
    have hy := hpre y (by simp)
    rw [List.cons_append, JHP.jhp_publish_cons_ok pf e y _ hy hc hd,
      JHP.jhp_publish_cons_ok pf e y _ hy hc hd]
    exact ih _ (by simpa [GaugeVec.setTo] using hc) (by simpa [GaugeVec.setTo] using hd)
      (fun z hz => hpre z (by simp [hz]))

/-- C2. Global service, on an exporter whose two vectors have their five label names.
The confirmed and deaths texts of a record go through `strconv.ParseFloat` and the
parsed `float64` is what the gauges of the record's label tuple receive (so the text
"1234" gives the gauge value 1234.0, that being what `ParseFloat` returns for it).  The loop is fatal
exactly when some record of the payload has a confirmed or deaths text that does not
parse; and then the exporter is left as the records before the first such record left
it: nothing was written for that record or for a later one. -/
theorem jhp_coercion_and_fatal_exit (pf : String → Option Float64) (e : JHP.Exporter)
    (rs : JHP.JhopkinsData)
    (hc : e.JHcases.desc.variableLabels.length = 5)
    (hd : e.JHdeaths.desc.variableLabels.length = 5) :
    (∀ x c d, pf x.Stats.Confirmed = some c → pf x.Stats.Deaths = some d →
        (JHP.publish pf e [x]).2 = .returned
          ∧ (JHP.publish pf e [x]).1.JHcases.value? (JHP.labelValues x) = some c
          ∧ (JHP.publish pf e [x]).1.JHdeaths.value? (JHP.labelValues x) = some d)
    ∧ (pf "1234" = some (float64OfNat 1234) →
        ∀ x d, x.Stats.Confirmed = "1234" → pf x.Stats.Deaths = some d →
          (JHP.publish pf e [x]).1.JHcases.value? (JHP.labelValues x)
            = some (float64OfNat 1234))
    ∧ ((JHP.publish pf e rs).2 = .fatal
        ↔ ∃ x ∈ rs, pf x.Stats.Confirmed = none ∨ pf x.Stats.Deaths = none)
    ∧ (∀ pre x post, rs = pre ++ x :: post →
        (∀ y ∈ pre, (pf y.Stats.Confirmed).isSome ∧ (pf y.Stats.Deaths).isSome) →
        (pf x.Stats.Confirmed = none ∨ pf x.Stats.Deaths = none) →
        JHP.publish pf e rs = ((JHP.publish pf e pre).1, .fatal)
          ∧ (JHP.publish pf e pre).2 = .returned) := by
  have hset : ∀ x c d, pf x.Stats.Confirmed = some c → pf x.Stats.Deaths = some d →
      (JHP.publish pf e [x]).2 = .returned
        ∧ (JHP.publish pf e [x]).1.JHcases.value? (JHP.labelValues x) = some c
        ∧ (JHP.publish pf e [x]).1.JHdeaths.value? (JHP.labelValues x) = some d := by
    intro x c d hxc hxd
    have hp : JHP.parses pf x = true := by simp [JHP.parses, hxc, hxd]
    rw [JHP.jhp_publish_cons_ok pf e x [] hp hc hd]
    refine ⟨rfl, ?_, ?_⟩
    · have := setSeries_find e.JHcases.metrics (JHP.labelValues x) (JHP.labelValues x) c
      simpa [JHP.publish, GaugeVec.value?, GaugeVec.setTo, hxc] using this
    · have := setSeries_find e.JHdeaths.metrics (JHP.labelValues x) (JHP.labelValues x) d
      simpa [JHP.publish, GaugeVec.value?, GaugeVec.setTo, hxd] using this
  refine ⟨hset, ?_, ?_, ?_⟩
  · intro h1234 x d hx hxd
    exact (hset x _ d (by rw [hx]; exact h1234) hxd).2.1
  · rw [JHP.jhp_publish_eq pf e rs hc hd]
    by_cases hall : rs.all (JHP.parses pf) = true
    · simp only [hall, if_true]
      constructor
      · intro h
        cases h
      · rintro ⟨x, hx, hbad⟩
        have h1 := List.all_eq_true.1 hall x hx
        rw [(JHP.jhp_parses_eq_false_iff pf x).2 hbad] at h1
        cases h1
    · have hout : (if rs.all (JHP.parses pf) = true then Outcome.returned else Outcome.fatal)
          = Outcome.fatal := by simp [hall]
      rw [hout]
      simp only [List.all_eq_true, not_forall] at hall
      obtain ⟨x, hx, hbad⟩ := hall
      refine ⟨fun _ => ⟨x, hx, (JHP.jhp_parses_eq_false_iff pf x).1 ?_⟩, fun _ => rfl⟩
      simpa using hbad
  · intro pre x post hrs hpre hx
    subst hrs
    exact JHP.jhp_publish_stops_at_first_failure pf e pre x post hc hd
      (fun y hy => (JHP.jhp_parses_eq_true_iff pf y).2 (hpre y hy))
      ((JHP.jhp_parses_eq_false_iff pf x).2 hx)

/-- Witness of C2: on the payload whose second record reads "n/a" the cycle is fatal and
the confirmed vector holds the one series of the first record, with the bit pattern of
1234.0. -/
theorem jhp_coercion_and_fatal_exit_witness :
    (JHP.publish parseDigits JHP.NewExporter JHP.brokenPayload).2 = .fatal
      ∧ (JHP.publish parseDigits JHP.NewExporter JHP.brokenPayload).1.JHcases.metrics
          = [(["Y", "P", "", "3.5", "-4"], 0x4093480000000000)]
      ∧ float64OfNat 1234 = 0x4093480000000000 :=
  ⟨(jhp_coercion_and_fatal_exit parseDigits JHP.NewExporter JHP.brokenPayload rfl rfl).2.2.1.2
      (by decide),
    by decide, by decide⟩

theorem setAllTo_keepsOtherSeries (g : GaugeVec) (kvs : Series) (written : List (List String))
    (h : ∀ k ∈ kvs.map (fun s => s.1), k ∈ written) :
    KeepsOtherSeries g (g.setAllTo kvs) written := by
  refine ⟨rfl, ?_, ?_, ?_⟩
  · intro l hl
    exact setAll_find_of_not_mem g.metrics kvs l (fun hk => hl (h l hk))
  · intro s hs hl
    exact setAll_mem_of_not_mem g.metrics kvs s hs (fun hk => hl (h _ hk))
  · intro l hl
    exact (setAll_keys_mem g.metrics kvs l).2 (Or.inl hl)

/-- Whatever the label names of the two vectors, the loop leaves each vector as a run of
leading records of the payload set it. -/
theorem JHP.jhp_publish_runs (pf : String → Option Float64) (e : JHP.Exporter)
    (rs : JHP.JhopkinsData) :
    ∃ rc tc rd td, rs = rc ++ tc ∧ rs = rd ++ td
      ∧ (JHP.publish pf e rs).1
          = { JHcases := e.JHcases.setAllTo (JHP.casesWrites pf rc),
              JHdeaths := e.JHdeaths.setAllTo (JHP.deathsWrites pf rd) } := by
  induction rs generalizing e with
  | nil => exact ⟨[], [], [], [], rfl, rfl, rfl⟩
  | cons x rest ih =>
    by_cases hp : JHP.parses pf x = true
    · by_cases hc : e.JHcases.desc.variableLabels.length = 5
      · by_cases hd : e.JHdeaths.desc.variableLabels.length = 5
        · rw [JHP.jhp_publish_cons_ok pf e x rest hp hc hd]
          obtain ⟨rc, tc, rd, td, h1, h2, h3⟩ := ih
            { JHcases := e.JHcases.setTo (JHP.labelValues x) ((pf x.Stats.Confirmed).getD 0),
              JHdeaths := e.JHdeaths.setTo (JHP.labelValues x) ((pf x.Stats.Deaths).getD 0) }
          refine ⟨x :: rc, tc, x :: rd, td, by simp [← h1], by simp [← h2], ?_⟩
          rw [h3]
          simp [JHP.casesWrites, JHP.deathsWrites, GaugeVec.setAllTo, GaugeVec.setTo, setAll_cons]
        · rw [JHP.jhp_publish_cons_panic_deaths pf e x rest hp hc hd]
          refine ⟨[x], rest, [], x :: rest, rfl, rfl, ?_⟩
          simp [JHP.casesWrites, JHP.deathsWrites, GaugeVec.setAllTo, GaugeVec.setTo, setAll]
      · rw [JHP.jhp_publish_cons_panic_cases pf e x rest hp hc]
        exact ⟨[], x :: rest, [], x :: rest, rfl, rfl, rfl⟩
    · have hp2 : JHP.parses pf x = false := by simpa using hp
      rw [JHP.jhp_publish_cons_fatal pf e x rest hp2]
      exact ⟨[], x :: rest, [], x :: rest, rfl, rfl, rfl⟩

theorem MX.mx_publish_runs (e : MX.Exporter) (ds : MX.Covid19MX) :
    ∃ rc tc ra ta, ds = rc ++ tc ∧ ds = ra ++ ta
      ∧ (MX.publish e ds).1
          = { CaseID := e.CaseID.setAllTo (MX.caseIDWrites rc),
              Age := e.Age.setAllTo (MX.ageWrites ra) } := by
  induction ds generalizing e with
  | nil => exact ⟨[], [], [], [], rfl, rfl, rfl⟩
  | cons d rest ih =>
    by_cases hc : e.CaseID.desc.variableLabels.length = 5
    · by_cases ha : e.Age.desc.variableLabels.length = 5
      · rw [MX.mx_publish_cons_ok e d rest hc ha]
        obtain ⟨rc, tc, ra, ta, h1, h2, h3⟩ := ih
          { CaseID := e.CaseID.setTo (MX.labelValues d) d.CaseID,
            Age := e.Age.setTo (MX.labelValues d) d.Age }
        refine ⟨d :: rc, tc, d :: ra, ta, by simp [← h1], by simp [← h2], ?_⟩
        rw [h3]
        simp [MX.caseIDWrites, MX.ageWrites, GaugeVec.setAllTo, GaugeVec.setTo, setAll_cons]
      · rw [MX.mx_publish_cons_panic_age e d rest hc ha]
        refine ⟨[d], rest, [], d :: rest, rfl, rfl, ?_⟩
        simp [MX.caseIDWrites, MX.ageWrites, GaugeVec.setAllTo, GaugeVec.setTo, setAll]
    · rw [MX.mx_publish_cons_panic_caseID e d rest hc]
      exact ⟨[], d :: rest, [], d :: rest, rfl, rfl, rfl⟩

/-- C3. For every exporter state and every decoded payload, a collect cycle (also one
that ends early) leaves every series whose label tuple is not in the payload in place
with its value, creates no series for such a tuple, and keeps every label tuple that was
held: series are added or overwritten, never pruned.  On the empty payload the loop
leaves the exporter exactly as it was, and so does the whole cycle on the body `[]`. -/
theorem collect_keeps_series_outside_payload (pf : String → Option Float64)
    (ej : JHP.Exporter) (rs : JHP.JhopkinsData) (em : MX.Exporter) (ds : MX.Covid19MX)
    (err : Option String) :
    (KeepsOtherSeries ej.JHcases (JHP.publish pf ej rs).1.JHcases (rs.map JHP.labelValues)
      ∧ KeepsOtherSeries ej.JHdeaths (JHP.publish pf ej rs).1.JHdeaths (rs.map JHP.labelValues)
      ∧ JHP.publish pf ej [] = (ej, .returned)
      ∧ (JHP.Collect pf ej ⟨some ⟨.ok (.valid (.array []))⟩, err⟩).exporter = ej
      ∧ (JHP.Collect pf ej ⟨some ⟨.ok (.valid (.array []))⟩, err⟩).outcome = .returned)
    ∧ (KeepsOtherSeries em.CaseID (MX.publish em ds).1.CaseID (ds.map MX.labelValues)
      ∧ KeepsOtherSeries em.Age (MX.publish em ds).1.Age (ds.map MX.labelValues)
      ∧ MX.publish em [] = (em, .returned)
      ∧ (MX.Collect pf em ⟨some ⟨.ok (.valid (.array []))⟩, err⟩).exporter = em
      ∧ (MX.Collect pf em ⟨some ⟨.ok (.valid (.array []))⟩, err⟩).outcome = .returned) := by
  obtain ⟨rc, tc, rd, td, h1, h2, h3⟩ := JHP.jhp_publish_runs pf ej rs
  obtain ⟨mc, uc, ma, ua, g1, g2, g3⟩ := MX.mx_publish_runs em ds
  refine ⟨⟨?_, ?_, rfl, rfl, rfl⟩, ⟨?_, ?_, rfl, rfl, rfl⟩⟩
  · rw [h3]
    apply setAllTo_keepsOtherSeries
    intro k hk
    rw [h1]
    simp only [JHP.casesWrites, List.map_map, List.mem_map, Function.comp_apply] at hk
    obtain ⟨y, hy, rfl⟩ := hk
    exact List.mem_map.2 ⟨y, by simp [hy], rfl⟩
  · rw [h3]
    apply setAllTo_keepsOtherSeries
    intro k hk
    rw [h2]
    simp only [JHP.deathsWrites, List.map_map, List.mem_map, Function.comp_apply] at hk
    obtain ⟨y, hy, rfl⟩ := hk
    exact List.mem_map.2 ⟨y, by simp [hy], rfl⟩
  · rw [g3]
    apply setAllTo_keepsOtherSeries
    intro k hk
    rw [g1]
    simp only [MX.caseIDWrites, List.map_map, List.mem_map, Function.comp_apply] at hk
    obtain ⟨y, hy, rfl⟩ := hk
    exact List.mem_map.2 ⟨y, by simp [hy], rfl⟩
  · rw [g3]
    apply setAllTo_keepsOtherSeries
    intro k hk
    rw [g2]
    simp only [MX.ageWrites, List.map_map, List.mem_map, Function.comp_apply] at hk
    obtain ⟨y, hy, rfl⟩ := hk
    exact List.mem_map.2 ⟨y, by simp [hy], rfl⟩

theorem JHP.jhp_publish_idem (pf : String → Option Float64) (e : JHP.Exporter)
    (rs : JHP.JhopkinsData) :
    JHP.publish pf (JHP.publish pf e rs).1 rs = JHP.publish pf e rs := by
  by_cases hc : e.JHcases.desc.variableLabels.length = 5
  · by_cases hd : e.JHdeaths.desc.variableLabels.length = 5
    · rw [JHP.jhp_publish_eq pf e rs hc hd]
      simp only
      rw [JHP.jhp_publish_eq pf _ rs (by simpa [GaugeVec.setAllTo] using hc)
        (by simpa [GaugeVec.setAllTo] using hd)]
      simp [GaugeVec.setAllTo, setAll_idem]
    · cases rs with
      | nil => rfl
      | cons x rest =>
        by_cases hp : JHP.parses pf x = true
        · rw [JHP.jhp_publish_cons_panic_deaths pf e x rest hp hc hd]
          simp only
          rw [JHP.jhp_publish_cons_panic_deaths pf
            { JHcases := e.JHcases.setTo (JHP.labelValues x) ((pf x.Stats.Confirmed).getD 0),
              JHdeaths := e.JHdeaths } x rest hp
            (by simpa [GaugeVec.setTo] using hc) hd]
          simp [GaugeVec.setTo, setSeries_idem]
        · have hp2 : JHP.parses pf x = false := by simpa using hp
          rw [JHP.jhp_publish_cons_fatal pf e x rest hp2]
          simp only
          rw [JHP.jhp_publish_cons_fatal pf e x rest hp2]
  · cases rs with
    | nil => rfl
    | cons x rest =>
      by_cases hp : JHP.parses pf x = true
      · rw [JHP.jhp_publish_cons_panic_cases pf e x rest hp hc]
        simp only
        rw [JHP.jhp_publish_cons_panic_cases pf e x rest hp hc]
      · have hp2 : JHP.parses pf x = false := by simpa using hp
        rw [JHP.jhp_publish_cons_fatal pf e x rest hp2]
        simp only
        rw [JHP.jhp_publish_cons_fatal pf e x rest hp2]

theorem MX.mx_publish_idem (e : MX.Exporter) (ds : MX.Covid19MX) :
    MX.publish (MX.publish e ds).1 ds = MX.publish e ds := by
  by_cases hc : e.CaseID.desc.variableLabels.length = 5
  · by_cases ha : e.Age.desc.variableLabels.length = 5
    · rw [MX.mx_publish_eq e ds hc ha]
      simp only
      rw [MX.mx_publish_eq _ ds (by simpa [GaugeVec.setAllTo] using hc)
        (by simpa [GaugeVec.setAllTo] using ha)]
      simp [GaugeVec.setAllTo, setAll_idem]
    · cases ds with
      | nil => rfl
      | cons d rest =>
        rw [MX.mx_publish_cons_panic_age e d rest hc ha]
        simp only
        rw [MX.mx_publish_cons_panic_age
          { CaseID := e.CaseID.setTo (MX.labelValues d) d.CaseID, Age := e.Age } d rest
          (by simpa [GaugeVec.setTo] using hc) ha]
        simp [GaugeVec.setTo, setSeries_idem]
  · cases ds with
    | nil => rfl
    | cons d rest =>
      rw [MX.mx_publish_cons_panic_caseID e d rest hc]
      simp only
      rw [MX.mx_publish_cons_panic_caseID e d rest hc]

theorem JHP.jhp_collect_exporter (pf : String → Option Float64) (e : JHP.Exporter) (b : Body)
    (err : Option String) :
    (JHP.Collect pf e ⟨some ⟨.ok b⟩, err⟩).exporter = (JHP.publish pf e (JHP.Unmarshal pf b).1).1
      ∧ (JHP.Collect pf e ⟨some ⟨.ok b⟩, err⟩).outcome
          = (JHP.publish pf e (JHP.Unmarshal pf b).1).2 := by
  unfold JHP.Collect
  simp only
  cases h : JHP.publish pf e (JHP.Unmarshal pf b).1 with
  | mk e1 o => cases o <;> exact ⟨rfl, rfl⟩

theorem MX.mx_collect_exporter (pf : String → Option Float64) (e : MX.Exporter) (b : Body)
    (err : Option String) :
    (MX.Collect pf e ⟨some ⟨.ok b⟩, err⟩).exporter = (MX.publish e (MX.Unmarshal pf b).1).1
      ∧ (MX.Collect pf e ⟨some ⟨.ok b⟩, err⟩).outcome
          = (MX.publish e (MX.Unmarshal pf b).1).2 := by
  unfold MX.Collect
  simp only
  cases h : MX.publish e (MX.Unmarshal pf b).1 with
  | mk e1 o => cases o <;> exact ⟨rfl, rfl⟩

theorem JHP.jhp_collect_idem (pf : String → Option Float64) (e : JHP.Exporter) (r : DoResult) :
    JHP.Collect pf (JHP.Collect pf e r).exporter r = JHP.Collect pf e r := by
  obtain ⟨resp, err⟩ := r
  cases resp with
  | none => rfl
  | some resp =>
    obtain ⟨body⟩ := resp
    cases body with
    | error m => rfl
    | ok b =>
      have hi := JHP.jhp_publish_idem pf e (JHP.Unmarshal pf b).1
      unfold JHP.Collect
      simp only
      cases h : JHP.publish pf e (JHP.Unmarshal pf b).1 with
      | mk e1 o =>
        rw [h] at hi
        cases o <;> simp only [hi]

theorem MX.mx_collect_idem (pf : String → Option Float64) (e : MX.Exporter) (r : DoResult) :
    MX.Collect pf (MX.Collect pf e r).exporter r = MX.Collect pf e r := by
  obtain ⟨resp, err⟩ := r
  cases resp with
  | none => rfl
  | some resp =>
    obtain ⟨body⟩ := resp
    cases body with
    | error m => rfl
    | ok b =>
      have hi := MX.mx_publish_idem e (MX.Unmarshal pf b).1
      unfold MX.Collect
      simp only
      cases h : MX.publish e (MX.Unmarshal pf b).1 with
      | mk e1 o =>
        rw [h] at hi
        cases o <;> simp only [hi]

/-- C4. Scraping again with an unchanged upstream payload is idempotent: for every
exporter state and every decoded payload, running the loop on the payload a second time
gives the exporter (same label tuples, same values, both vectors) and the outcome of
the first run; and a second whole cycle on the same response gives the result of
the first, samples sent included. -/
theorem collect_twice_same_payload (pf : String → Option Float64)
    (ej : JHP.Exporter) (rs : JHP.JhopkinsData) (em : MX.Exporter) (ds : MX.Covid19MX)
    (r : DoResult) :
    JHP.publish pf (JHP.publish pf ej rs).1 rs = JHP.publish pf ej rs
      ∧ MX.publish (MX.publish em ds).1 ds = MX.publish em ds
      ∧ JHP.Collect pf (JHP.Collect pf ej r).exporter r = JHP.Collect pf ej r
      ∧ MX.Collect pf (MX.Collect pf em r).exporter r = MX.Collect pf em r :=
  ⟨JHP.jhp_publish_idem pf ej rs, MX.mx_publish_idem em ds, JHP.jhp_collect_idem pf ej r,
    MX.mx_collect_idem pf em r⟩

/-- C5 (what the code does). When `http.DefaultClient.Do` returns an error and no
response, both services print the error and then panic on `resp.Body`: the cycle does
not run to completion.  The gauge vectors are as before and nothing is sent. -/
theorem collect_transport_error_panics (pf : String → Option Float64) (ej : JHP.Exporter)
    (em : MX.Exporter) (msg : String) :
    (JHP.Collect pf ej ⟨none, some msg⟩).outcome = .panicked
      ∧ (JHP.Collect pf ej ⟨none, some msg⟩).printed = [msg]
      ∧ (JHP.Collect pf ej ⟨none, some msg⟩).exporter = ej
      ∧ (JHP.Collect pf ej ⟨none, some msg⟩).sent = []
      ∧ (MX.Collect pf em ⟨none, some msg⟩).outcome = .panicked
      ∧ (MX.Collect pf em ⟨none, some msg⟩).printed = [msg]
      ∧ (MX.Collect pf em ⟨none, some msg⟩).exporter = em
      ∧ (MX.Collect pf em ⟨none, some msg⟩).sent = [] :=
  ⟨rfl, rfl, rfl, rfl, rfl, rfl, rfl, rfl⟩

/-- C7. Global service, from the empty registry, for a `ParseFloat` that reads "10" as 10
and "2" as 2: the cycle on the one record of the scenario, whatever its `updatedAt` and
`recovered`, returns and leaves one series per family, labelled
`country="X",province="",city="",latitude="1.0",longitude="2.0"`, with value 10 for
`covid19JHP_confirmed_cases` and 2 for `covid19JHP_deaths`; these two samples are all
that is sent, and the cycle on the JSON body of the scenario sends the same. -/
theorem jhp_scenario_one_record (pf : String → Option Float64)
    (h10 : pf "10" = some (float64OfNat 10)) (h2 : pf "2" = some (float64OfNat 2)) :
    (∀ (updatedAt : String) (recovered : Float64),
        (JHP.publish pf JHP.NewExporter [JHP.scenarioDatum updatedAt recovered]).2 = .returned
        ∧ (JHP.publish pf JHP.NewExporter
              [JHP.scenarioDatum updatedAt recovered]).1.JHcases.metrics
            = [(["X", "", "", "1.0", "2.0"], float64OfNat 10)]
        ∧ (JHP.publish pf JHP.NewExporter
              [JHP.scenarioDatum updatedAt recovered]).1.JHdeaths.metrics
            = [(["X", "", "", "1.0", "2.0"], float64OfNat 2)]
        ∧ (JHP.publish pf JHP.NewExporter
              [JHP.scenarioDatum updatedAt recovered]).1.JHcases.Collect
            ++ (JHP.publish pf JHP.NewExporter
              [JHP.scenarioDatum updatedAt recovered]).1.JHdeaths.Collect
            = JHP.scenarioSamples)
    ∧ (JHP.Collect pf JHP.NewExporter ⟨some ⟨.ok JHP.scenarioBody⟩, none⟩).outcome = .returned
    ∧ (JHP.Collect pf JHP.NewExporter ⟨some ⟨.ok JHP.scenarioBody⟩, none⟩).sent
        = JHP.scenarioSamples := by
  have hp : ∀ (u : String) (r : Float64),
      JHP.publish pf JHP.NewExporter [JHP.scenarioDatum u r]
        = ({ JHcases := { JHP.NewExporter.JHcases with
                metrics := [(["X", "", "", "1.0", "2.0"], float64OfNat 10)] },
             JHdeaths := { JHP.NewExporter.JHdeaths with
                metrics := [(["X", "", "", "1.0", "2.0"], float64OfNat 2)] } },
            .returned) := by
    intro u r
    have hparse : JHP.parses pf (JHP.scenarioDatum u r) = true := by
      simp [JHP.parses, JHP.scenarioDatum, h10, h2]
    rw [JHP.jhp_publish_cons_ok pf JHP.NewExporter _ [] hparse rfl rfl]
    simp [JHP.publish, JHP.scenarioDatum, h10, h2, GaugeVec.setTo, setSeries, JHP.labelValues,
      JHP.NewExporter, NewGaugeVec]
  have hdata : (JHP.Unmarshal pf JHP.scenarioBody).1
      = [JHP.scenarioDatum "" (decodeFloat64 pf (.number "0") 0).1] := rfl
  refine ⟨?_, ?_, ?_⟩
  · intro u r
    rw [hp u r]
    exact ⟨rfl, rfl, rfl, by decide⟩
  · rw [(JHP.jhp_collect_exporter pf JHP.NewExporter _ none).2, hdata, hp]
  · unfold JHP.Collect
    simp only [hdata, hp]
    decide

/-- Witness of C7 with the digit parser: the samples sent for the body of the scenario. -/
theorem jhp_scenario_one_record_witness :
    (JHP.Collect parseDigits JHP.NewExporter ⟨some ⟨.ok JHP.scenarioBody⟩, none⟩).sent
        = JHP.scenarioSamples
      ∧ float64OfNat 10 = 0x4024000000000000 ∧ float64OfNat 2 = 0x4000000000000000 :=
  ⟨(jhp_scenario_one_record parseDigits (by decide) (by decide)).2.2, by decide, by decide⟩

/-- C8. Each service describes exactly two gauge families, named and labelled as in the
table of the specification.  For every record the loop passes five label values, as many
as there are label names, so `WithLabelValues` does not panic on the vectors of
`NewExporter` whatever series they hold, and the loop never ends in a panic from the
empty registry; the values are the record's fields, untouched, in the order of the label
names: a sample pairs `country` with `Country`, `province` with `Province`, `city` with
`City`, `latitude` with `Latitude`, `longitude` with `Longitude` (and `state`, `sex`,
`date_sintoms_started`, `arrived_from`, `entry_to_mx_date` with `State`, `Sex`,
`DateSintomStarted`, `ArrivedFrom`, `EntryToMX`). -/
theorem families_names_and_label_values (pf : String → Option Float64) :
    (JHP.Describe JHP.NewExporter
        = [ { fqName := "covid19JHP_confirmed_cases",
              help := "John Hopkins data confirmed cases",
              variableLabels := ["country", "province", "city", "latitude", "longitude"] },
            { fqName := "covid19JHP_deaths",
              help := "John Hopkins data confirmed deaths",
              variableLabels := ["country", "province", "city", "latitude", "longitude"] } ]
      ∧ (∀ x : JHP.JhopkinsDatum,
          JHP.labelValues x
              = [x.Country, x.Province, x.City, x.Coordinates.Latitude, x.Coordinates.Longitude]
          ∧ (JHP.labelValues x).length = JHP.NewExporter.JHcases.desc.variableLabels.length
          ∧ (JHP.labelValues x).length = JHP.NewExporter.JHdeaths.desc.variableLabels.length
          ∧ (∀ ms, ({ JHP.NewExporter.JHcases with metrics := ms }).WithLabelValues
                (JHP.labelValues x) ≠ none)
          ∧ (∀ ms, ({ JHP.NewExporter.JHdeaths with metrics := ms }).WithLabelValues
                (JHP.labelValues x) ≠ none)
          ∧ (∀ c d, pf x.Stats.Confirmed = some c → pf x.Stats.Deaths = some d →
              (JHP.publish pf JHP.NewExporter [x]).1.JHcases.Collect
                  = [ { fqName := "covid19JHP_confirmed_cases",
                        labels := [("country", x.Country), ("province", x.Province),
                          ("city", x.City), ("latitude", x.Coordinates.Latitude),
                          ("longitude", x.Coordinates.Longitude)],
                        value := c } ]
                ∧ (JHP.publish pf JHP.NewExporter [x]).1.JHdeaths.Collect
                  = [ { fqName := "covid19JHP_deaths",
                        labels := [("country", x.Country), ("province", x.Province),
                          ("city", x.City), ("latitude", x.Coordinates.Latitude),
                          ("longitude", x.Coordinates.Longitude)],
                        value := d } ]))
      ∧ (∀ rs, (JHP.publish pf JHP.NewExporter rs).2 ≠ .panicked))
    ∧ (MX.Describe MX.NewExporter
        = [ { fqName := "covid19MX_caseID", help := "CaseID",
              variableLabels :=
                ["state", "sex", "date_sintoms_started", "arrived_from", "entry_to_mx_date"] },
            { fqName := "covid19MX_Age", help := "Person Age",
              variableLabels :=
                ["state", "sex", "date_sintoms_started", "arrived_from", "entry_to_mx_date"] } ]
      ∧ (∀ d : MX.Covid19MXCase,
          MX.labelValues d = [d.State, d.Sex, d.DateSintomStarted, d.ArrivedFrom, d.EntryToMX]
          ∧ (MX.labelValues d).length = MX.NewExporter.CaseID.desc.variableLabels.length
          ∧ (MX.labelValues d).length = MX.NewExporter.Age.desc.variableLabels.length
          ∧ (∀ ms, ({ MX.NewExporter.CaseID with metrics := ms }).WithLabelValues
                (MX.labelValues d) ≠ none)
          ∧ (∀ ms, ({ MX.NewExporter.Age with metrics := ms }).WithLabelValues
                (MX.labelValues d) ≠ none)
          ∧ (MX.publish MX.NewExporter [d]).1.CaseID.Collect
              = [ { fqName := "covid19MX_caseID",
                    labels := [("state", d.State), ("sex", d.Sex),
                      ("date_sintoms_started", d.DateSintomStarted),
                      ("arrived_from", d.ArrivedFrom), ("entry_to_mx_date", d.EntryToMX)],
                    value := d.CaseID } ]
          ∧ (MX.publish MX.NewExporter [d]).1.Age.Collect
              = [ { fqName := "covid19MX_Age",
                    labels := [("state", d.State), ("sex", d.Sex),
                      ("date_sintoms_started", d.DateSintomStarted),
                      ("arrived_from", d.ArrivedFrom), ("entry_to_mx_date", d.EntryToMX)],
                    value := d.Age } ])
      ∧ (∀ ds, (MX.publish MX.NewExporter ds).2 ≠ .panicked)) := by
  refine ⟨⟨by decide, ?_, ?_⟩, ⟨by decide, ?_, ?_⟩⟩
  · intro x
    refine ⟨rfl, rfl, rfl, ?_, ?_, ?_⟩
    · intro ms h
      rw [withLabelValues_eq_none] at h
      exact h rfl
    · intro ms h
      rw [withLabelValues_eq_none] at h
      exact h rfl
    · intro c d hc hd
      have hparse : JHP.parses pf x = true := by simp [JHP.parses, hc, hd]
      rw [JHP.jhp_publish_cons_ok pf JHP.NewExporter x [] hparse rfl rfl]
      simp only [JHP.publish, hc, hd, Option.getD_some]
      constructor
      · simp [GaugeVec.Collect, GaugeVec.setTo, setSeries, JHP.NewExporter, NewGaugeVec,
          JHP.labelValues]
        decide
      · simp [GaugeVec.Collect, GaugeVec.setTo, setSeries, JHP.NewExporter, NewGaugeVec,
          JHP.labelValues]
        decide
  · intro rs h
    rw [JHP.jhp_publish_eq pf JHP.NewExporter rs rfl rfl] at h
    simp only at h
    split at h <;> cases h
  · intro d
    refine ⟨rfl, rfl, rfl, ?_, ?_, ?_, ?_⟩
    · intro ms h
      rw [withLabelValues_eq_none] at h
      exact h rfl
    · intro ms h
      rw [withLabelValues_eq_none] at h
      exact h rfl
    · rw [MX.mx_publish_cons_ok MX.NewExporter d [] rfl rfl]
      simp [MX.publish, GaugeVec.Collect, GaugeVec.setTo, setSeries, MX.NewExporter, NewGaugeVec,
        MX.labelValues]
      decide
    · rw [MX.mx_publish_cons_ok MX.NewExporter d [] rfl rfl]
      simp [MX.publish, GaugeVec.Collect, GaugeVec.setTo, setSeries, MX.NewExporter, NewGaugeVec,
        MX.labelValues]
      decide
  · intro ds h
    rw [MX.mx_publish_eq MX.NewExporter ds rfl rfl] at h
    cases h

/-- The label tuples after `setAll` depend only on the label tuples before and written. -/
theorem setAll_keys_congr (ms ms2 kvs kvs2 : Series)
    (hm : ms.map (fun s => s.1) = ms2.map (fun s => s.1))
    (hk : kvs.map (fun s => s.1) = kvs2.map (fun s => s.1)) :
    (setAll ms kvs).map (fun s => s.1) = (setAll ms2 kvs2).map (fun s => s.1) := by
  induction kvs generalizing ms ms2 kvs2 with
  | nil =>
    cases kvs2 with
    | nil => simpa [setAll] using hm
    | cons a t => simp at hk
  | cons kv rest ih =>
    cases kvs2 with
    | nil => simp at hk
    | cons kv2 rest2 =>
      simp only [List.map_cons, List.cons.injEq] at hk
      rw [setAll_cons, setAll_cons]
      apply ih _ _ _ _ hk.2
      rw [setSeries_keys, setSeries_keys, hm, hk.1]

theorem jhp_reachable_invariant (pf : String → Option Float64) (e : JHP.Exporter)
    (o : Outcome) (h : JHP.Reachable pf e o) :
    e.JHcases.desc.variableLabels.length = 5 ∧ e.JHdeaths.desc.variableLabels.length = 5
      ∧ e.JHcases.labelTuples = e.JHdeaths.labelTuples := by
  induction h with
  | init => exact ⟨rfl, rfl, rfl⟩
  | cycle e rs _ ih =>
    obtain ⟨hc, hd, hk⟩ := ih
    rw [JHP.jhp_publish_eq pf e rs hc hd]
    refine ⟨hc, hd, ?_⟩
    exact setAll_keys_congr _ _ _ _ hk (by simp [JHP.casesWrites, JHP.deathsWrites])

theorem mx_reachable_invariant (e : MX.Exporter) (o : Outcome) (h : MX.Reachable e o) :
    e.CaseID.desc.variableLabels.length = 5 ∧ e.Age.desc.variableLabels.length = 5
      ∧ e.CaseID.labelTuples = e.Age.labelTuples := by
  induction h with
  | init => exact ⟨rfl, rfl, rfl⟩
  | cycle e ds _ ih =>
    obtain ⟨hc, ha, hk⟩ := ih
    rw [MX.mx_publish_eq e ds hc ha]
    refine ⟨hc, ha, ?_⟩
    exact setAll_keys_congr _ _ _ _ hk (by simp [MX.caseIDWrites, MX.ageWrites])

/-- C10. In every exporter state reached from the empty registry by collect cycles over
decoded payloads, a global-service cycle cut short by a fatal parse failure included,
the two gauge vectors of a service hold the same label tuples (in the same order of
creation, hence the same set). -/
theorem families_hold_same_label_tuples (pf : String → Option Float64)
    (ej : JHP.Exporter) (oj : Outcome) (em : MX.Exporter) (om : Outcome)
    (hj : JHP.Reachable pf ej oj) (hm : MX.Reachable em om) :
    (ej.JHcases.labelTuples = ej.JHdeaths.labelTuples
      ∧ ∀ l, l ∈ ej.JHcases.labelTuples ↔ l ∈ ej.JHdeaths.labelTuples)
    ∧ (em.CaseID.labelTuples = em.Age.labelTuples
      ∧ ∀ l, l ∈ em.CaseID.labelTuples ↔ l ∈ em.Age.labelTuples) := by
  have h1 := (jhp_reachable_invariant pf ej oj hj).2.2
  have h2 := (mx_reachable_invariant em om hm).2.2
  exact ⟨⟨h1, fun l => by rw [h1]⟩, ⟨h2, fun l => by rw [h2]⟩⟩

/-- Witness of C10: the state the fatal cycle on the broken payload leaves, and the
state after the sample cases. -/
theorem families_hold_same_label_tuples_witness :
    (JHP.publish parseDigits JHP.NewExporter JHP.brokenPayload).2 = .fatal
      ∧ (JHP.publish parseDigits JHP.NewExporter JHP.brokenPayload).1.JHcases.labelTuples
          = (JHP.publish parseDigits JHP.NewExporter JHP.brokenPayload).1.JHdeaths.labelTuples
      ∧ (MX.publish MX.NewExporter MX.samplePayload).1.CaseID.labelTuples
          = (MX.publish MX.NewExporter MX.samplePayload).1.Age.labelTuples :=
  ⟨by decide,
    (families_hold_same_label_tuples parseDigits _ _ _ _
      (JHP.Reachable.cycle JHP.NewExporter JHP.brokenPayload JHP.Reachable.init)
      (MX.Reachable.cycle MX.NewExporter MX.samplePayload MX.Reachable.init)).1.1,
    (families_hold_same_label_tuples parseDigits _ _ _ _
      (JHP.Reachable.cycle JHP.NewExporter JHP.brokenPayload JHP.Reachable.init)
      (MX.Reachable.cycle MX.NewExporter MX.samplePayload MX.Reachable.init)).2.1⟩

/-- C6, counterexample.  A body with a field of the wrong JSON type fails to decode (the
error is non-nil), yet the record sequence is not empty.  Country service, body
`[{"n0_caso":"7","estado":"A"}]`: one record is decoded, with case id 0, and the cycle
writes a series to both vectors.  Global service, body
`[{"country":"X","stats":{"confirmed":10,"deaths":"2"}}]`: one record is decoded with an
empty confirmed text, and the cycle is fatal as soon as `ParseFloat` refuses the empty
text.  So it is not true that every body that fails to decode leaves the sequence empty. -/
theorem decode_type_mismatch_still_publishes :
    (∀ pf : String → Option Float64,
        (MX.Unmarshal pf MX.mismatchBody).2 = true
        ∧ (MX.Unmarshal pf MX.mismatchBody).1 = [{ MX.zeroCase with State := "A" }]
        ∧ (MX.Collect pf MX.NewExporter ⟨some ⟨.ok MX.mismatchBody⟩, none⟩).outcome = .returned
        ∧ (MX.Collect pf MX.NewExporter
              ⟨some ⟨.ok MX.mismatchBody⟩, none⟩).exporter.CaseID.metrics
            = [(["A", "", "", "", ""], 0)]
        ∧ (MX.Collect pf MX.NewExporter
              ⟨some ⟨.ok MX.mismatchBody⟩, none⟩).exporter.Age.metrics
            = [(["A", "", "", "", ""], 0)])
    ∧ (∀ pf : String → Option Float64, pf "" = none →
        (JHP.Unmarshal pf JHP.mismatchBody).2 = true
        ∧ (JHP.Unmarshal pf JHP.mismatchBody).1
            = [{ JHP.zeroDatum with
                  Country := "X",
                  Stats := { Confirmed := "", Deaths := "2", Recovered := 0 } }]
        ∧ (JHP.Collect pf JHP.NewExporter
              ⟨some ⟨.ok JHP.mismatchBody⟩, none⟩).outcome = .fatal)
    ∧ ¬ (∀ (pf : String → Option Float64) (b : Body),
          (MX.Unmarshal pf b).2 = true → (MX.Unmarshal pf b).1 = []) := by
  have hmx : ∀ pf : String → Option Float64,
      MX.Unmarshal pf MX.mismatchBody = ([{ MX.zeroCase with State := "A" }], true) :=
    fun _ => rfl
  have hjh : ∀ pf : String → Option Float64,
      JHP.Unmarshal pf JHP.mismatchBody
        = ([{ JHP.zeroDatum with
                Country := "X",
                Stats := { Confirmed := "", Deaths := "2", Recovered := 0 } }], true) :=
    fun _ => rfl
  refine ⟨?_, ?_, ?_⟩
  · intro pf
    rw [(MX.mx_collect_exporter pf MX.NewExporter MX.mismatchBody none).1,
      (MX.mx_collect_exporter pf MX.NewExporter MX.mismatchBody none).2, hmx pf]
    exact ⟨rfl, rfl, by decide, by decide, by decide⟩
  · intro pf hpf
    rw [(JHP.jhp_collect_exporter pf JHP.NewExporter JHP.mismatchBody none).2, hjh pf]
    refine ⟨rfl, rfl, ?_⟩
    simp [JHP.publish, JHP.zeroDatum, hpf]
  · intro h
    have := h parseDigits MX.mismatchBody (by rw [hmx])
    rw [hmx] at this
    cases this

/-- C6, amended.  The error of `json.Unmarshal` is dropped in every case: the cycle goes
on with whatever the slice holds.  When the body is rejected by the scanner, or its
top-level value is not an array, the slice is empty, the cycle returns, the exporter is
as before and what is sent is what the vectors already held.  A top-level array gives
one record per element, type mismatch or not. -/
theorem decode_failure_outside_array_elements (pf : String → Option Float64)
    (ej : JHP.Exporter) (em : MX.Exporter) (b : Body) (err : Option String)
    (hb : b = .invalid ∨ ∃ v, b = .valid v ∧ v.isArray = false) :
    ((JHP.Unmarshal pf b).1 = []
      ∧ (JHP.Collect pf ej ⟨some ⟨.ok b⟩, err⟩).outcome = .returned
      ∧ (JHP.Collect pf ej ⟨some ⟨.ok b⟩, err⟩).exporter = ej
      ∧ (JHP.Collect pf ej ⟨some ⟨.ok b⟩, err⟩).sent = ej.JHcases.Collect ++ ej.JHdeaths.Collect)
    ∧ ((MX.Unmarshal pf b).1 = []
      ∧ (MX.Collect pf em ⟨some ⟨.ok b⟩, err⟩).outcome = .returned
      ∧ (MX.Collect pf em ⟨some ⟨.ok b⟩, err⟩).exporter = em
      ∧ (MX.Collect pf em ⟨some ⟨.ok b⟩, err⟩).sent = em.CaseID.Collect ++ em.Age.Collect)
    ∧ (∀ (b2 : Body) (e2 : JHP.Exporter),
        (JHP.Collect pf e2 ⟨some ⟨.ok b2⟩, err⟩).exporter
            = (JHP.publish pf e2 (JHP.Unmarshal pf b2).1).1
          ∧ (JHP.Collect pf e2 ⟨some ⟨.ok b2⟩, err⟩).outcome
            = (JHP.publish pf e2 (JHP.Unmarshal pf b2).1).2)
    ∧ (∀ (b2 : Body) (e2 : MX.Exporter),
        (MX.Collect pf e2 ⟨some ⟨.ok b2⟩, err⟩).exporter
            = (MX.publish e2 (MX.Unmarshal pf b2).1).1
          ∧ (MX.Collect pf e2 ⟨some ⟨.ok b2⟩, err⟩).outcome
            = (MX.publish e2 (MX.Unmarshal pf b2).1).2)
    ∧ (∀ xs : List JSON,
        (JHP.Unmarshal pf (.valid (.array xs))).1.length = xs.length
          ∧ (MX.Unmarshal pf (.valid (.array xs))).1.length = xs.length) := by
  have hj : (JHP.Unmarshal pf b).1 = [] := by
    rcases hb with rfl | ⟨v, rfl, hv⟩
    · rfl
    · cases v <;> first | rfl | simp [JSON.isArray] at hv
  have hm : (MX.Unmarshal pf b).1 = [] := by
    rcases hb with rfl | ⟨v, rfl, hv⟩
    · rfl
    · cases v <;> first | rfl | simp [JSON.isArray] at hv
  refine ⟨⟨hj, ?_, ?_, ?_⟩, ⟨hm, ?_, ?_, ?_⟩, ?_, ?_, ?_⟩
  · rw [(JHP.jhp_collect_exporter pf ej b err).2, hj]; rfl
  · rw [(JHP.jhp_collect_exporter pf ej b err).1, hj]; rfl
  · unfold JHP.Collect
    simp only [hj, JHP.publish]
  · rw [(MX.mx_collect_exporter pf em b err).2, hm]; rfl
  · rw [(MX.mx_collect_exporter pf em b err).1, hm]; rfl
  · unfold MX.Collect
    simp only [hm, MX.publish]
  · exact fun b2 e2 => JHP.jhp_collect_exporter pf e2 b2 err
  · exact fun b2 e2 => MX.mx_collect_exporter pf e2 b2 err
  · intro xs
    simp [JHP.Unmarshal, MX.Unmarshal]

/-- Witness of the amended C6: a body the scanner rejects, from the empty registry. -/
theorem decode_failure_outside_array_elements_witness :
    (JHP.Collect parseDigits JHP.NewExporter ⟨some ⟨.ok .invalid⟩, none⟩).outcome = .returned
      ∧ (JHP.Collect parseDigits JHP.NewExporter ⟨some ⟨.ok .invalid⟩, none⟩).exporter
          = JHP.NewExporter
      ∧ (MX.Collect parseDigits MX.NewExporter ⟨some ⟨.ok .invalid⟩, none⟩).exporter
          = MX.NewExporter :=
  ⟨(decode_failure_outside_array_elements parseDigits JHP.NewExporter MX.NewExporter .invalid
      none (Or.inl rfl)).1.2.1,
    (decode_failure_outside_array_elements parseDigits JHP.NewExporter MX.NewExporter .invalid
      none (Or.inl rfl)).1.2.2.1,
    (decode_failure_outside_array_elements parseDigits JHP.NewExporter MX.NewExporter .invalid
      none (Or.inl rfl)).2.1.2.2.1⟩
